import Mathlib

/-!
Verification of the s3-photobrowser indexing-and-caching pipeline.

This file gives a shallow embedding, in Lean, of the server-side services of
the repository (photoIndexer, database, cacheManager, videoProcessor,
s3Client and the Express delete route), and proves or refutes the frozen
claims about them.

Modelling conventions:
  * JavaScript `Date` values are modelled by their epoch-millisecond value
    (an `Int`); `Date.toISOString` is injective on time values, so the
    stored `modifiedAt` ISO string is modelled by the same integer.
  * `new Date(year, month - 1, day)` normalises out-of-range days by
    calendar arithmetic; this is modelled explicitly (`normYmd`).
  * JavaScript numbers appearing in EXIF fields are modelled as `Rat`.
  * SQLite rows of the `photos` table are modelled by the `Row` structure;
    the table is a `List Row` (the `UNIQUE(s3Key)` constraint appears as a
    `Pairwise` hypothesis where a claim needs it).
  * Filesystem state relevant to a claim is an explicit value (a list of
    paths, or the cache map); external effects (S3 fetches, exifr parses,
    ffmpeg invocations) are supplied as oracle arguments so that every
    control path of the source is represented.
-/

set_option autoImplicit false

namespace PhotoBrowser

/-! ### Basic string helpers shared by the services -/

/-- ASCII lower-casing of a single character, the relevant fragment of
JavaScript's `toLowerCase` for the extension strings compared here. -/
def lowerChar (c : Char) : Char :=
  match c with
  | 'A' => 'a' | 'B' => 'b' | 'C' => 'c' | 'D' => 'd' | 'E' => 'e'
  | 'F' => 'f' | 'G' => 'g' | 'H' => 'h' | 'I' => 'i' | 'J' => 'j'
  | 'K' => 'k' | 'L' => 'l' | 'M' => 'm' | 'N' => 'n' | 'O' => 'o'
  | 'P' => 'p' | 'Q' => 'q' | 'R' => 'r' | 'S' => 's' | 'T' => 't'
  | 'U' => 'u' | 'V' => 'v' | 'W' => 'w' | 'X' => 'x' | 'Y' => 'y'
  | 'Z' => 'z' | c => c

/-- The suffix of the character list starting at the last '.', if any;
models `lastIndexOf('.')` followed by `substring`. -/
def lastDotTail : List Char → Option (List Char)
  | [] => none
  | c :: rest =>
    match lastDotTail rest with
    | some t => some t
    | none => if c = '.' then some (c :: rest) else none

/-- `filename.toLowerCase().substring(filename.lastIndexOf('.'))`:
when no '.' occurs, `lastIndexOf` is -1 and `substring(-1)` clamps to 0,
returning the whole (lower-cased) string. -/
def extOf (filename : String) : List Char :=
  ((lastDotTail filename.data).getD filename.data).map lowerChar

/-! ### S3ClientService classification (src/server/services/s3Client.ts) -/

def imageExtensions : List (List Char) :=
  [".jpg".data, ".jpeg".data, ".png".data, ".gif".data, ".webp".data, ".heic".data]

def videoExtensions : List (List Char) :=
  [".mp4".data, ".mov".data, ".avi".data, ".mkv".data, ".webm".data]

def isImage (filename : String) : Bool :=
  imageExtensions.contains (extOf filename)

def isVideoFile (filename : String) : Bool :=
  videoExtensions.contains (extOf filename)

def mimeTable : List (List Char × String) :=
  [ (".jpg".data, "image/jpeg"), (".jpeg".data, "image/jpeg"),
    (".png".data, "image/png"), (".gif".data, "image/gif"),
    (".webp".data, "image/webp"), (".heic".data, "image/heic"),
    (".mp4".data, "video/mp4"), (".mov".data, "video/quicktime"),
    (".avi".data, "video/x-msvideo"), (".mkv".data, "video/x-matroska"),
    (".webm".data, "video/webm") ]

def getMimeType (filename : String) : String :=
  match mimeTable.lookup (extOf filename) with
  | some m => m
  | none => "application/octet-stream"

/-! ### PhotoIndexerService.extractDateFromPath
(src/server/services/photoIndexer.ts, lines 223-241)

The three regex searches are modelled by explicit left-to-right scans over
the character list of the key:
  * a year match for the pattern (19|20)dd delimited by word boundaries,
  * a month match: the year digits, a separator (slash or dash), then (0[1-9]|1[0-2]),
  * a day match: year digits, separator, padded month, separator, then (0[1-9]|[12][0-9]|3[01]).
-/

def digitVal (c : Char) : Option Nat :=
  if c = '0' then some 0 else if c = '1' then some 1 else if c = '2' then some 2
  else if c = '3' then some 3 else if c = '4' then some 4 else if c = '5' then some 5
  else if c = '6' then some 6 else if c = '7' then some 7 else if c = '8' then some 8
  else if c = '9' then some 9 else none

def digitChar10 (d : Nat) : Char :=
  if d = 0 then '0' else if d = 1 then '1' else if d = 2 then '2'
  else if d = 3 then '3' else if d = 4 then '4' else if d = 5 then '5'
  else if d = 6 then '6' else if d = 7 then '7' else if d = 8 then '8' else '9'

/-- Membership in the regex word class [A-Za-z0-9_], which defines the
boundaries asserted by the b anchors. -/
def isWordChar (c : Char) : Bool :=
  ('a' ≤ c ∧ c ≤ 'z') ∨ ('A' ≤ c ∧ c ≤ 'Z') ∨ ('0' ≤ c ∧ c ≤ '9') ∨ c = '_'

def isSep (c : Char) : Bool := c = '/' ∨ c = '-'

/-- A word boundary holds between the previous character (none at the start
of the string) and a word character. -/
def boundaryOk : Option Char → Bool
  | none => true
  | some c => !(isWordChar c)

/-- The year pattern (19|20)dd with boundary anchors, tested at the head of
the suffix; the character preceding the suffix is passed explicitly. -/
def yearHere (prev : Option Char) (l : List Char) : Option Nat :=
  match l with
  | a :: b :: c :: d :: rest =>
    match digitVal a, digitVal b, digitVal c, digitVal d with
    | some x, some y, some z, some w =>
      if boundaryOk prev ∧ ((x = 1 ∧ y = 9) ∨ (x = 2 ∧ y = 0)) ∧
          boundaryOk rest.head? then
        some (1000 * x + 100 * y + 10 * z + w)
      else none
    | _, _, _, _ => none
  | _ => none

/-- Left-to-right scan carrying the previous character, as the regex engine
does when looking for the leftmost match. -/
def scanPrev (prev : Option Char) : List Char → Option Nat
  | [] => none
  | c :: rest =>
    match yearHere prev (c :: rest) with
    | some v => some v
    | none => scanPrev (some c) rest

def findYear (l : List Char) : Option Nat := scanPrev none l

/-- The decimal digits of a year in [1000,9999], as interpolated into the
month and day regexes by the template literal. -/
def yStr (y : Nat) : List Char :=
  [digitChar10 (y / 1000 % 10), digitChar10 (y / 100 % 10),
   digitChar10 (y / 10 % 10), digitChar10 (y % 10)]

/-- Two-digit zero-padded form, as produced by padStart(2, '0') for values
below 100. -/
def pad2 (m : Nat) : List Char := [digitChar10 (m / 10 % 10), digitChar10 (m % 10)]

/-- The month pattern: year digits, a separator, then (0[1-9]|1[0-2]); tested
at the head of the suffix. -/
def monthHere (ys : List Char) (l : List Char) : Option Nat :=
  if ys.isPrefixOf l then
    match l.drop ys.length with
    | s :: a :: b :: _ =>
      if isSep s then
        match digitVal a, digitVal b with
        | some x, some y =>
          if 1 ≤ 10 * x + y ∧ 10 * x + y ≤ 12 then some (10 * x + y) else none
        | _, _ => none
      else none
    | _ => none
  else none

/-- Left-to-right scan over all suffixes (no boundary context needed). -/
def scanTails (p : List Char → Option Nat) : List Char → Option Nat
  | [] => none
  | c :: rest =>
    match p (c :: rest) with
    | some v => some v
    | none => scanTails p rest

def findMonth (y : Nat) (l : List Char) : Option Nat := scanTails (monthHere (yStr y)) l

/-- The day pattern: year digits, separator, padded month, separator, then
(0[1-9]|[12][0-9]|3[01]); tested at the head of the suffix. -/
def dayHere (ys ms : List Char) (l : List Char) : Option Nat :=
  if ys.isPrefixOf l then
    match l.drop ys.length with
    | s1 :: t1 =>
      if isSep s1 ∧ ms.isPrefixOf t1 then
        match t1.drop ms.length with
        | s2 :: a :: b :: _ =>
          if isSep s2 then
            match digitVal a, digitVal b with
            | some x, some y =>
              if 1 ≤ 10 * x + y ∧ 10 * x + y ≤ 31 then some (10 * x + y) else none
            | _, _ => none
          else none
        | _ => none
      else none
    | [] => none
  else none

def findDay (y m : Nat) (l : List Char) : Option Nat :=
  scanTails (dayHere (yStr y) (pad2 m)) l

/-- Gregorian leap-year rule used by the JavaScript Date type. -/
def isLeap (y : Nat) : Bool := y % 4 = 0 ∧ (y % 100 ≠ 0 ∨ y % 400 = 0)

def daysInMonth (y m : Nat) : Nat :=
  if m = 2 then (if isLeap y then 29 else 28)
  else if m = 4 ∨ m = 6 ∨ m = 9 ∨ m = 11 then 30
  else 31

/-- The calendar value denoted by new Date(y, m - 1, d) for m in [1,12] and
d in [1,31]: a day beyond the month's length rolls into the following month
(a single borrow suffices in that range, and the year never changes since
December has 31 days). -/
def normYmd (y m d : Nat) : Nat × Nat × Nat :=
  if d > daysInMonth y m then (y, m + 1, d - daysInMonth y m) else (y, m, d)

/-- extractDateFromPath: first boundary-delimited year in [1900,2099]; the
first month pattern for that year, defaulting to 1; the first day pattern
for that year and (padded) month, defaulting to 1; the result is the Date
value new Date(year, month - 1, day). -/
def extractDateFromPath (s3Key : String) : Option (Nat × Nat × Nat) :=
  match findYear s3Key.data with
  | none => none
  | some y =>
    let m := (findMonth y s3Key.data).getD 1
    let d := (findDay y m s3Key.data).getD 1
    some (normYmd y m d)

/-- A point on the JavaScript timeline: either an epoch-millisecond value
(a Date obtained from the object listing or EXIF) or the local-midnight
calendar date produced by new Date(y, m - 1, d). -/
inductive Timestamp where
  | epoch (ms : Int)
  | ymd (y m d : Nat)
deriving DecidableEq

inductive DateAccuracy where
  | dnone
  | folders
  | foldersExif
  | exif
deriving DecidableEq

/-! ### DatabaseService (src/server/services/database.ts)

JavaScript falsy coercions (x || null, x || undefined) on nullable columns
are modelled explicitly: an empty string and a zero number are collapsed to
none where the source applies them. -/

structure ExifData where
  cameraMake : Option String
  cameraModel : Option String
  lensModel : Option String
  focalLength : Option Rat
  aperture : Option Rat
  iso : Option Nat
  shutterSpeed : Option String
  exposureTime : Option Rat
  latitude : Option Rat
  longitude : Option Rat
deriving DecidableEq

inductive MediaType where
  | photo
  | video
deriving DecidableEq

structure PhotoMetadata where
  id : String
  filename : String
  path : String
  s3Key : String
  size : Nat
  mimeType : String
  mtype : MediaType
  width : Option Nat
  height : Option Nat
  duration : Option Rat
  createdAt : Timestamp
  modifiedAt : Int
  exif : Option ExifData
  cached : Bool
deriving DecidableEq

/-- One row of the photos table (the EXIF fields are separate columns). -/
structure Row where
  id : String
  filename : String
  path : String
  s3Key : String
  size : Nat
  mimeType : String
  mtype : MediaType
  width : Option Nat
  height : Option Nat
  duration : Option Rat
  createdAt : Timestamp
  modifiedAt : Int
  cameraMake : Option String
  cameraModel : Option String
  lensModel : Option String
  focalLength : Option Rat
  aperture : Option Rat
  iso : Option Nat
  shutterSpeed : Option String
  exposureTime : Option Rat
  latitude : Option Rat
  longitude : Option Rat
  cached : Bool
deriving DecidableEq

/-- x || null on a string value (empty string is falsy). -/
def falsyS : Option String → Option String
  | some s => if s = "" then none else some s
  | none => none

/-- x || null on a number value (zero is falsy). -/
def falsyQ : Option Rat → Option Rat
  | some q => if q = 0 then none else some q
  | none => none

/-- x || null on a number value (zero is falsy), Nat version. -/
def falsyN : Option Nat → Option Nat
  | some n => if n = 0 then none else some n
  | none => none

/-- The parameter record bound by upsertPhoto's stmt.run, as an inserted row
(each nullable column goes through an x || null coercion). -/
def toRow (p : PhotoMetadata) : Row where
  id := p.id
  filename := p.filename
  path := p.path
  s3Key := p.s3Key
  size := p.size
  mimeType := p.mimeType
  mtype := p.mtype
  width := falsyN p.width
  height := falsyN p.height
  duration := falsyQ p.duration
  createdAt := p.createdAt
  modifiedAt := p.modifiedAt
  cameraMake := falsyS (p.exif.bind ExifData.cameraMake)
  cameraModel := falsyS (p.exif.bind ExifData.cameraModel)
  lensModel := falsyS (p.exif.bind ExifData.lensModel)
  focalLength := falsyQ (p.exif.bind ExifData.focalLength)
  aperture := falsyQ (p.exif.bind ExifData.aperture)
  iso := falsyN (p.exif.bind ExifData.iso)
  shutterSpeed := falsyS (p.exif.bind ExifData.shutterSpeed)
  exposureTime := falsyQ (p.exif.bind ExifData.exposureTime)
  latitude := falsyQ (p.exif.bind ExifData.latitude)
  longitude := falsyQ (p.exif.bind ExifData.longitude)
  cached := p.cached

/-- The ON CONFLICT(s3Key) DO UPDATE SET clause: every column of the insert
except id and createdAt, applied to the conflicting row. -/
def updateRow (p : PhotoMetadata) (r : Row) : Row :=
  { r with
    filename := p.filename
    path := p.path
    size := p.size
    mimeType := p.mimeType
    mtype := p.mtype
    width := falsyN p.width
    height := falsyN p.height
    duration := falsyQ p.duration
    modifiedAt := p.modifiedAt
    cameraMake := falsyS (p.exif.bind ExifData.cameraMake)
    cameraModel := falsyS (p.exif.bind ExifData.cameraModel)
    lensModel := falsyS (p.exif.bind ExifData.lensModel)
    focalLength := falsyQ (p.exif.bind ExifData.focalLength)
    aperture := falsyQ (p.exif.bind ExifData.aperture)
    iso := falsyN (p.exif.bind ExifData.iso)
    shutterSpeed := falsyS (p.exif.bind ExifData.shutterSpeed)
    exposureTime := falsyQ (p.exif.bind ExifData.exposureTime)
    latitude := falsyQ (p.exif.bind ExifData.latitude)
    longitude := falsyQ (p.exif.bind ExifData.longitude)
    cached := p.cached }

/-- upsertPhoto: INSERT ... ON CONFLICT(s3Key) DO UPDATE. -/
def upsertPhoto (p : PhotoMetadata) (db : List Row) : List Row :=
  if db.any (fun r => r.s3Key == p.s3Key) then
    db.map (fun r => if r.s3Key == p.s3Key then updateRow p r else r)
  else db ++ [toRow p]

/-- rowToPhoto: the exif object is reconstructed only when at least one of
nine columns (exposureTime is not among them) is truthy, and each field goes
through an x || undefined coercion. -/
def rowToPhoto (r : Row) : PhotoMetadata :=
  let anyExif :=
    (falsyS r.cameraMake).isSome || (falsyS r.cameraModel).isSome ||
    (falsyS r.lensModel).isSome || (falsyQ r.focalLength).isSome ||
    (falsyQ r.aperture).isSome || (falsyN r.iso).isSome ||
    (falsyS r.shutterSpeed).isSome || (falsyQ r.latitude).isSome ||
    (falsyQ r.longitude).isSome
  { id := r.id
    filename := r.filename
    path := r.path
    s3Key := r.s3Key
    size := r.size
    mimeType := r.mimeType
    mtype := r.mtype
    width := falsyN r.width
    height := falsyN r.height
    duration := falsyQ r.duration
    createdAt := r.createdAt
    modifiedAt := r.modifiedAt
    exif :=
      if anyExif then
        some { cameraMake := falsyS r.cameraMake
               cameraModel := falsyS r.cameraModel
               lensModel := falsyS r.lensModel
               focalLength := falsyQ r.focalLength
               aperture := falsyQ r.aperture
               iso := falsyN r.iso
               shutterSpeed := falsyS r.shutterSpeed
               exposureTime := falsyQ r.exposureTime
               latitude := falsyQ r.latitude
               longitude := falsyQ r.longitude }
      else none
    cached := r.cached }

/-- getPhotoByS3Key: SELECT * FROM photos WHERE s3Key = ? (first row). -/
def getPhotoByS3Key (k : String) (db : List Row) : Option PhotoMetadata :=
  (db.find? (fun r => r.s3Key == k)).map rowToPhoto

/-- The data argument of updatePhotoExif: each field is present exactly when
the corresponding !== undefined check succeeds in the source. -/
structure ExifUpdate where
  exif : Option ExifData
  createdAt : Option Timestamp
  width : Option Nat
  height : Option Nat
deriving DecidableEq

def exifHasAny (e : ExifData) : Bool :=
  e.cameraMake.isSome || e.cameraModel.isSome || e.lensModel.isSome ||
  e.focalLength.isSome || e.aperture.isSome || e.iso.isSome ||
  e.shutterSpeed.isSome || e.exposureTime.isSome || e.latitude.isSome ||
  e.longitude.isSome

/-- True exactly when the source accumulates at least one SET fragment. -/
def updHasAny (u : ExifUpdate) : Bool :=
  (match u.exif with
   | some e => exifHasAny e
   | none => false) ||
  u.createdAt.isSome || u.width.isSome || u.height.isSome

/-- Write the supplied value over the current one; absent means untouched. -/
def setCol {α : Type} (p cur : Option α) : Option α :=
  match p with
  | some v => some v
  | none => cur

def applyExifUpdate (u : ExifUpdate) (r : Row) : Row :=
  let r1 :=
    match u.exif with
    | none => r
    | some e =>
      { r with
        cameraMake := setCol e.cameraMake r.cameraMake
        cameraModel := setCol e.cameraModel r.cameraModel
        lensModel := setCol e.lensModel r.lensModel
        focalLength := setCol e.focalLength r.focalLength
        aperture := setCol e.aperture r.aperture
        iso := setCol e.iso r.iso
        shutterSpeed := setCol e.shutterSpeed r.shutterSpeed
        exposureTime := setCol e.exposureTime r.exposureTime
        latitude := setCol e.latitude r.latitude
        longitude := setCol e.longitude r.longitude }
  { r1 with
    createdAt := u.createdAt.getD r1.createdAt
    width := setCol u.width r1.width
    height := setCol u.height r1.height }

/-- updatePhotoExif: builds SET fragments for the supplied fields only and
returns without touching the database when there are none. -/
def updatePhotoExif (k : String) (u : ExifUpdate) (db : List Row) : List Row :=
  if updHasAny u then
    db.map (fun r => if r.s3Key == k then applyExifUpdate u r else r)
  else db

/-- deletePhoto: DELETE FROM photos WHERE id = ?. -/
def deletePhoto (photoId : String) (db : List Row) : List Row :=
  db.filter (fun r => !(r.id == photoId))

/-! ### PhotoIndexerService.indexPhoto (src/server/services/photoIndexer.ts)

External effects of the exif date-accuracy mode (the partial S3 fetch and
the exifr parse) are supplied as an oracle argument:
  none          - the fetch or the parse threw (the catch branch),
  some none     - exifr returned undefined,
  some (some p) - exifr returned the object p.
The fresh randomUUID value is likewise an argument. -/

structure S3Object where
  key : String
  size : Nat
  lastModified : Int
deriving DecidableEq

/-- The fields of the exifr.parse result picked by the source; Date-valued
tags carry their epoch value. -/
structure ParsedExif where
  dateTimeOriginal : Option Int
  createDate : Option Int
  make : Option String
  model : Option String
  lensModel : Option String
  focalLength : Option Rat
  fnumber : Option Rat
  iso : Option Nat
  exposureTime : Option Rat
  latitude : Option Rat
  longitude : Option Rat
  imageWidth : Option Nat
  imageHeight : Option Nat
deriving DecidableEq

/-- Split a path at its last '/' into (directory, base), if any. -/
def splitLastSlash : List Char → Option (List Char × List Char)
  | [] => none
  | c :: rest =>
    match splitLastSlash rest with
    | some (d, b) => some (c :: d, b)
    | none => if c = '/' then some ([], rest) else none

/-- path.basename for the slash-separated keys used here. -/
def basename (s : String) : String :=
  match splitLastSlash s.data with
  | some (_, b) => String.mk b
  | none => s

/-- path.dirname for the slash-separated keys used here ('.' when the key
has no directory part). -/
def dirname (s : String) : String :=
  match splitLastSlash s.data with
  | some (d, _) => String.mk d
  | none => "."

/-- ExposureTime ? "1/" + Math.round(1 / ExposureTime) : undefined. -/
def shutterOf (t : Option Rat) : Option String :=
  match t with
  | some q => if q = 0 then none else some ("1/" ++ toString (round (1 / q)))
  | none => none

def exifOf (px : ParsedExif) : ExifData where
  cameraMake := px.make
  cameraModel := px.model
  lensModel := px.lensModel
  focalLength := px.focalLength
  aperture := px.fnumber
  iso := px.iso
  shutterSpeed := shutterOf px.exposureTime
  exposureTime := px.exposureTime
  latitude := px.latitude
  longitude := px.longitude

/-- The body of indexPhoto between the existence check and the record
construction: the createdAt / width / height / exif values after the
date-accuracy switch (lines 262-359). -/
def resolveFields (acc : DateAccuracy) (oracle : Option (Option ParsedExif))
    (obj : S3Object) (existing : Option PhotoMetadata) (isVid : Bool) :
    Timestamp × Option Nat × Option Nat × Option ExifData :=
  let w0 := existing.bind PhotoMetadata.width
  let h0 := existing.bind PhotoMetadata.height
  let e0 := existing.bind PhotoMetadata.exif
  let c0 : Timestamp := .epoch obj.lastModified
  match acc with
  | .dnone => (c0, w0, h0, e0)
  | .folders | .foldersExif =>
    (match extractDateFromPath obj.key with
     | some (y, m, d) => (Timestamp.ymd y m d, w0, h0, e0)
     | none => (c0, w0, h0, e0))
  | .exif =>
    if isVid then (c0, w0, h0, e0)
    else
      match oracle with
      | none =>
        (match extractDateFromPath obj.key with
         | some (y, m, d) => (Timestamp.ymd y m d, w0, h0, e0)
         | none => (c0, w0, h0, e0))
      | some none => (c0, w0, h0, e0)
      | some (some px) =>
        let c1 :=
          match px.dateTimeOriginal with
          | some v => Timestamp.epoch v
          | none =>
            match px.createDate with
            | some v => Timestamp.epoch v
            | none => c0
        let wh :=
          match px.imageWidth, px.imageHeight with
          | some w, some h => if w ≠ 0 ∧ h ≠ 0 then (some w, some h) else (w0, h0)
          | _, _ => (w0, h0)
        (c1, wh.1, wh.2, some (exifOf px))

/-- The PhotoMetadata record built at lines 361-376 (existing?.id uses the
falsy || operator, so an empty stored id would be replaced). -/
def buildPhoto (acc : DateAccuracy) (oracle : Option (Option ParsedExif))
    (newId : String) (obj : S3Object) (existing : Option PhotoMetadata) :
    PhotoMetadata :=
  let isVid := isVideoFile obj.key
  let f := resolveFields acc oracle obj existing isVid
  { id :=
      match existing with
      | some ex => if ex.id = "" then newId else ex.id
      | none => newId
    filename := basename obj.key
    path := dirname obj.key
    s3Key := obj.key
    size := obj.size
    mimeType := getMimeType obj.key
    mtype := if isVid then .video else .photo
    width := f.2.1
    height := f.2.2.1
    duration := none
    createdAt := f.1
    modifiedAt := obj.lastModified
    exif := f.2.2.2
    cached :=
      match existing with
      | some ex => ex.cached
      | none => false }

/-- indexPhoto: return untouched when the stored modifiedAt equals the
listing's lastModified, otherwise build the record and upsert it. -/
def indexPhoto (acc : DateAccuracy) (oracle : Option (Option ParsedExif))
    (newId : String) (obj : S3Object) (db : List Row) : List Row :=
  match getPhotoByS3Key obj.key db with
  | some ex =>
    if ex.modifiedAt = obj.lastModified then db
    else upsertPhoto (buildPhoto acc oracle newId obj (some ex)) db
  | none => upsertPhoto (buildPhoto acc oracle newId obj none) db

/-! ### CacheManagerService (cache manager service of videoProcessor.ts,
lines 183-501)

The md5 content hash in getCachePath is an external library call; it is
modelled by the key itself, preserving the property the claims rely on:
the path is a deterministic function of (s3Key, size). currentSize is an
Int so that the subtraction in the eviction loop is exact. The 0.8 factor
of the low-water check is modelled by the exact comparison
5 * size <= 4 * limit. -/

inductive CacheKind where
  | thumbnail
  | preview
  | original
deriving DecidableEq

def kindDir : CacheKind → String
  | .thumbnail => "thumbnails"
  | .preview => "previews"
  | .original => "originals"

def kindSuffix : CacheKind → String
  | .thumbnail => "_thumb"
  | .preview => "_preview"
  | .original => ""

/-- getCachePath: directory for the kind, hash bucket (modelled by the key),
then base name with the kind suffix before the extension. -/
def getCachePath (s3Key : String) (kind : CacheKind) : String :=
  let filename := basename s3Key
  let extPart : List Char := (lastDotTail filename.data).getD []
  let namePart : List Char := filename.data.take (filename.data.length - extPart.length)
  kindDir kind ++ "/" ++ s3Key ++ "/" ++ String.mk namePart ++ kindSuffix kind
    ++ String.mk extPart

structure CacheEntry where
  path : String
  size : Nat
  accessTime : Nat
deriving DecidableEq

structure CacheState where
  entries : List (String × CacheEntry)
  currentSize : Int
  sizeLimit : Nat
  hits : Nat
  misses : Nat
deriving DecidableEq

def initCache (limit : Nat) : CacheState :=
  { entries := [], currentSize := 0, sizeLimit := limit, hits := 0, misses := 0 }

/-- Map.set: replace the value under an existing key, else append. -/
def setEntry (m : List (String × CacheEntry)) (k : String) (e : CacheEntry) :
    List (String × CacheEntry) :=
  if m.any (fun q => q.1 == k) then m.map (fun q => if q.1 == k then (k, e) else q)
  else m ++ [(k, e)]

/-- Map.delete. -/
def eraseEntry (m : List (String × CacheEntry)) (k : String) :
    List (String × CacheEntry) :=
  m.filter (fun q => !(q.1 == k))

def sumSizes (m : List (String × CacheEntry)) : Int :=
  (m.map (fun q => (q.2.size : Int))).sum

/-- Array.from(values()).sort((a, b) => a.accessTime - b.accessTime): a
stable ascending sort by access time. -/
def sortByAccess (m : List (String × CacheEntry)) : List (String × CacheEntry) :=
  m.insertionSort (fun a b => a.2.accessTime ≤ b.2.accessTime)

/-- The eviction loop: walk the LRU-sorted snapshot, stopping as soon as
the tracked size is at most 80 percent of the limit. -/
def evictLoop : List (String × CacheEntry) → CacheState → CacheState
  | [], st => st
  | e :: rest, st =>
    if 5 * st.currentSize ≤ 4 * (st.sizeLimit : Int) then st
    else
      evictLoop rest
        { st with
          entries := eraseEntry st.entries e.1
          currentSize := st.currentSize - (e.2.size : Int) }

def evictIfNeeded (st : CacheState) : CacheState :=
  if st.currentSize ≤ (st.sizeLimit : Int) then st
  else evictLoop (sortByAccess st.entries) st

/-- saveToCac: write the file, add the data length to currentSize, set the
map entry, then run the eviction check. -/
def saveToCac (s3Key : String) (kind : CacheKind) (dataLen : Nat) (now : Nat)
    (st : CacheState) : CacheState :=
  let p := getCachePath s3Key kind
  evictIfNeeded
    { st with
      currentSize := st.currentSize + (dataLen : Int)
      entries := setEntry st.entries p { path := p, size := dataLen, accessTime := now } }

/-- getCachedFile: on a hit, refresh the entry's access time and count a
hit; on a miss count a miss. -/
def getCachedFile (s3Key : String) (kind : CacheKind) (now : Nat)
    (st : CacheState) : CacheState × Bool :=
  let p := getCachePath s3Key kind
  if st.entries.any (fun q => q.1 == p) then
    ({ st with
       entries := st.entries.map
         (fun q => if q.1 == p then (q.1, { q.2 with accessTime := now }) else q)
       hits := st.hits + 1 }, true)
  else ({ st with misses := st.misses + 1 }, false)

/-- clearCache: remove every artifact and reset the accounting. -/
def clearCache (st : CacheState) : CacheState :=
  { st with entries := [], currentSize := 0 }

/-! ### Background indexing singleton (photoIndexer.ts, lines 92-125)

The detached async loop is reified as a step relation; activeRuns counts
the live loops (a loop decrements it in its finally block). -/

structure BgState where
  backgroundIndexing : Bool
  activeRuns : Nat
  statIndexed : Nat
  statFailed : Nat
deriving DecidableEq

/-- The observable effect of one startBackgroundIndexing call: the state
afterwards, whether a new run was launched, how many work items were queued
for later (the source has no queue), and whether it raised. -/
structure StartResult where
  state : BgState
  started : Bool
  queued : Nat
  errored : Bool
deriving DecidableEq

def startBackgroundIndexing (st : BgState) : StartResult :=
  if st.backgroundIndexing then
    { state := st, started := false, queued := 0, errored := false }
  else
    { state :=
        { backgroundIndexing := true, activeRuns := st.activeRuns + 1,
          statIndexed := 0, statFailed := 0 }
      started := true, queued := 0, errored := false }

inductive BgOp where
  | start
  | finishRun
  | recordIndexed
  | recordFailed
deriving DecidableEq

def bgStep (st : BgState) (op : BgOp) : BgState :=
  match op with
  | .start => (startBackgroundIndexing st).state
  | .finishRun => { st with backgroundIndexing := false, activeRuns := st.activeRuns - 1 }
  | .recordIndexed => { st with statIndexed := st.statIndexed + 1 }
  | .recordFailed => { st with statFailed := st.statFailed + 1 }

def bgInit : BgState :=
  { backgroundIndexing := false, activeRuns := 0, statIndexed := 0, statFailed := 0 }

def bgRun (ops : List BgOp) : BgState := ops.foldl bgStep bgInit

/-! ### VideoProcessorService.generateThumbnail (videoProcessor.ts, 39-78)

The filesystem is the list of existing temp paths; the S3 download and the
ffmpeg invocation are oracle booleans (ffmpegWrote covers an invocation
that produced the output file, independently of whether it reported
success). The finally block tries the two unlinks inside a single
try/catch, so a failing first unlink skips the second. -/

def tempVideoPath : String := "tmp/video-uuid"

def tempThumbPath : String := "tmp/thumb-uuid.jpg"

def removeFile (p : String) (fs : List String) : List String :=
  fs.filter (fun q => !(q == p))

/-- The finally block: unlink(tempVideoPath) then unlink(tempThumbPath) in
one try; when the first throws (the file is absent) the second never runs. -/
def cleanupTemp (fs : List String) : List String :=
  if fs.contains tempVideoPath then
    removeFile tempThumbPath (removeFile tempVideoPath fs)
  else fs

/-- generateThumbnail: returns the filesystem afterwards and whether a
thumbnail was produced. -/
def generateThumbnail (downloadOk ffmpegOk ffmpegWrote : Bool)
    (fs : List String) : List String × Bool :=
  if downloadOk = false then (cleanupTemp fs, false)
  else
    let fs1 := tempVideoPath :: fs
    let fs2 := if ffmpegWrote then tempThumbPath :: fs1 else fs1
    if ffmpegOk = false then (cleanupTemp fs2, false)
    else if ffmpegWrote then (cleanupTemp fs2, true)
    else (cleanupTemp fs2, false)

/-! ### The DELETE /api/photos/:photoId route (server entry file, lines
316-336): look up the record, delete the S3 object, delete the database
row — and nothing else. -/

structure SystemState where
  s3Keys : List String
  photos : List Row
  cache : CacheState
deriving DecidableEq

/-- getPhotoById: SELECT * FROM photos WHERE id = ? (first row). -/
def getPhotoById (photoId : String) (db : List Row) : Option PhotoMetadata :=
  (db.find? (fun r => r.id == photoId)).map rowToPhoto

/-- The delete route handler; the Bool is false for the 404 branch. -/
def deletePhotoRoute (photoId : String) (sys : SystemState) :
    SystemState × Bool :=
  match getPhotoById photoId sys.photos with
  | none => (sys, false)
  | some photo =>
    ({ sys with
       s3Keys := sys.s3Keys.filter (fun k => !(k == photo.s3Key))
       photos := deletePhoto photoId sys.photos }, true)

/-! ### Specification-side predicates and helpers used in the theorems -/

/-- Number of rows holding a given remote key. -/
def countKey (k : String) (db : List Row) : Nat :=
  db.countP (fun r => r.s3Key == k)

/-- Merge semantics of one optional column under a partial patch: an absent
patch field preserves the stored value, a present one overwrites it. -/
def Patched {α : Type} (p : Option α) (old new : Option α) : Prop :=
  (p = none → new = old) ∧ ∀ v, p = some v → new = some v

/-- A boundary-delimited occurrence of the four digits of a year in
[1900,2099], the specification reading of the year search. -/
def yearOccurs (y : Nat) (l : List Char) : Prop :=
  1900 ≤ y ∧ y ≤ 2099 ∧ ∃ pre post : List Char,
    l = pre ++ yStr y ++ post ∧
    (pre.getLast? = none ∨ ∃ c, pre.getLast? = some c ∧ isWordChar c = false) ∧
    (post.head? = none ∨ ∃ c, post.head? = some c ∧ isWordChar c = false)

/-- A month in [1,12] immediately following the year's digits, separated by
a slash or dash: the specification reading of the month search. -/
def monthFollows (y m : Nat) (l : List Char) : Prop :=
  1 ≤ m ∧ m ≤ 12 ∧ ∃ pre post : List Char, ∃ sep : Char,
    isSep sep = true ∧ l = pre ++ yStr y ++ sep :: (pad2 m ++ post)

/-- A day in [1,31] similarly following the year and the (padded) month:
the specification reading of the day search. -/
def dayFollows (y m d : Nat) (l : List Char) : Prop :=
  1 ≤ d ∧ d ≤ 31 ∧ ∃ pre post : List Char, ∃ s1 s2 : Char,
    isSep s1 = true ∧ isSep s2 = true ∧
    l = pre ++ yStr y ++ s1 :: (pad2 m ++ s2 :: (pad2 d ++ post))

/-- The Timestamp denoted by a (year, month, day) triple. -/
def ymdOf (p : Nat × Nat × Nat) : Timestamp := .ymd p.1 p.2.1 p.2.2

/-- The character immediately preceding the suffix obtained by dropping
pre, when the character preceding the whole list is prev. -/
def ctxPrev (prev : Option Char) (pre : List Char) : Option Char :=
  match pre.getLast? with
  | some c => some c
  | none => prev

/-- A concrete indexed row used by counterexamples and witnesses. -/
def cexRow : Row where
  id := "p1"
  filename := "a.jpg"
  path := "k"
  s3Key := "k/a.jpg"
  size := 5
  mimeType := "image/jpeg"
  mtype := .photo
  width := none
  height := none
  duration := none
  createdAt := .epoch 0
  modifiedAt := 0
  cameraMake := none
  cameraModel := none
  lensModel := none
  focalLength := none
  aperture := none
  iso := none
  shutterSpeed := none
  exposureTime := none
  latitude := none
  longitude := none
  cached := true

/-- A second concrete row, with a different id and key. -/
def cexRow2 : Row :=
  { cexRow with id := "p2", s3Key := "m/b.jpg", filename := "b.jpg", path := "m" }

/-- A concrete system state holding one indexed record together with a
cached thumbnail artifact for its key. -/
def cexSystem : SystemState where
  s3Keys := ["k/a.jpg"]
  photos := [cexRow]
  cache :=
    { entries :=
        [(getCachePath "k/a.jpg" .thumbnail,
          { path := getCachePath "k/a.jpg" .thumbnail, size := 5, accessTime := 1 })]
      currentSize := 5
      sizeLimit := 100
      hits := 0
      misses := 0 }

/-- A concrete cache state used by the eviction witness: two entries of 60
bytes over a limit of 100. -/
def cexCache : CacheState where
  entries :=
    [("a", { path := "a", size := 60, accessTime := 1 }),
     ("b", { path := "b", size := 60, accessTime := 2 })]
  currentSize := 120
  sizeLimit := 100
  hits := 0
  misses := 0

/-- A concrete partial patch used by the refinement witness: camera make,
width. -/
def cexPatch : ExifUpdate where
  exif :=
    some
      { cameraMake := some "Canon", cameraModel := none, lensModel := none,
        focalLength := none, aperture := none, iso := none,
        shutterSpeed := none, exposureTime := none, latitude := none,
        longitude := none }
  createdAt := none
  width := some 100
  height := none

/-- The all-absent patch. -/
def emptyPatch : ExifUpdate where
  exif := none
  createdAt := none
  width := none
  height := none

/-! ## Theorems -/


/-! Helper lemmas for C10 -/

theorem lowerChar_ne_dot {c : Char} (h : c ≠ '.') : lowerChar c ≠ '.' := by
  unfold lowerChar
  split <;> first | decide | exact h

theorem lastDotTail_eq_none {l : List Char} (h : '.' ∉ l) : lastDotTail l = none := by
  induction l with
  | nil => rfl
  | cons c rest ih =>
    have hc : c ≠ '.' := by intro habs; exact h (habs ▸ List.mem_cons_self c rest)
    have hrest : '.' ∉ rest := fun hm => h (List.mem_cons_of_mem c hm)
    unfold lastDotTail
    rw [ih hrest]
    simp [hc]

theorem extOf_no_dot {filename : String} (h : '.' ∉ filename.data) :
    '.' ∉ extOf filename := by
  unfold extOf
  rw [lastDotTail_eq_none h]
  intro hmem
  simp only [Option.getD_none, List.mem_map] at hmem
  obtain ⟨c, hc, hlc⟩ := hmem
  exact lowerChar_ne_dot (fun habs => h (habs ▸ hc)) hlc

theorem dot_mem_of_mem_imageExtensions {e : List Char} (h : e ∈ imageExtensions) :
    '.' ∈ e := by
  simp only [imageExtensions, List.mem_cons, List.not_mem_nil, or_false] at h
  rcases h with h | h | h | h | h | h <;> subst h <;> decide

theorem dot_mem_of_mem_videoExtensions {e : List Char} (h : e ∈ videoExtensions) :
    '.' ∈ e := by
  simp only [videoExtensions, List.mem_cons, List.not_mem_nil, or_false] at h
  rcases h with h | h | h | h | h <;> subst h <;> decide

theorem beq_false_of_dot {e d : List Char} (h : '.' ∉ e) (hd : '.' ∈ d) :
    (e == d) = false := by
  simp only [beq_eq_false_iff_ne]
  rintro rfl
  exact h hd

theorem mimeTable_lookup_dot {e : List Char} (h : '.' ∉ e) :
    mimeTable.lookup e = none := by
  simp only [mimeTable, List.lookup]
  rw [beq_false_of_dot h (by decide), beq_false_of_dot h (by decide),
    beq_false_of_dot h (by decide), beq_false_of_dot h (by decide),
    beq_false_of_dot h (by decide), beq_false_of_dot h (by decide),
    beq_false_of_dot h (by decide), beq_false_of_dot h (by decide),
    beq_false_of_dot h (by decide), beq_false_of_dot h (by decide),
    beq_false_of_dot h (by decide)]

theorem contains_eq_false_of_not_mem {α : Type} [BEq α] [LawfulBEq α]
    {l : List α} {x : α} (h : x ∉ l) : l.contains x = false := by
  induction l with
  | nil => rfl
  | cons a rest ih =>
    simp only [List.contains_cons]
    have hxa : (x == a) = false := by
      simp only [beq_eq_false_iff_ne]
      rintro rfl
      exact h (List.mem_cons_self x rest)
    rw [hxa]
    simp only [Bool.false_or]
    exact ih (fun hm => h (List.mem_cons_of_mem a hm))

theorem not_mem_of_contains_eq_false {α : Type} [BEq α] [LawfulBEq α]
    {l : List α} {x : α} (h : l.contains x = false) : x ∉ l := by
  intro hm
  induction l with
  | nil => cases hm
  | cons a rest ih =>
    simp only [List.contains_cons] at h
    rcases List.mem_cons.mp hm with rfl | hm'
    · simp at h
    · exact ih (by revert h; cases (x == a) <;> simp) hm'

/-- Claim C10: file classification is total and extension-less keys are
excluded — for every key string containing no '.', isImage and isVideo both
return false (the key is filtered out of indexing) and getMimeType returns
application/octet-stream; the functions are total Lean functions, so no
input makes them throw. -/
theorem C10_classification_no_extension (key : String) (h : '.' ∉ key.data) :
    isImage key = false ∧ isVideoFile key = false ∧
    getMimeType key = "application/octet-stream" := by
  have he := extOf_no_dot h
  refine ⟨?_, ?_, ?_⟩
  · exact contains_eq_false_of_not_mem
      (fun hm => he (dot_mem_of_mem_imageExtensions hm))
  · exact contains_eq_false_of_not_mem
      (fun hm => he (dot_mem_of_mem_videoExtensions hm))
  · unfold getMimeType
    rw [mimeTable_lookup_dot he]

/-- Witness for C10 at the concrete extension-less key README. -/
theorem C10_witness :
    '.' ∉ "README".data ∧
    (isImage "README" = false ∧ isVideoFile "README" = false ∧
      getMimeType "README" = "application/octet-stream") :=
  ⟨by decide, C10_classification_no_extension "README" (by decide)⟩

/-! Helper lemmas for C9 -/

theorem mem_removeFile {p q : String} {fs : List String} :
    q ∈ removeFile p fs ↔ q ∈ fs ∧ q ≠ p := by
  unfold removeFile
  simp only [List.mem_filter, Bool.not_eq_true']
  constructor
  · rintro ⟨hmem, hbeq⟩
    exact ⟨hmem, by simpa using hbeq⟩
  · rintro ⟨hmem, hne⟩
    exact ⟨hmem, by simpa using hne⟩

theorem cleanupTemp_spec (fs : List String)
    (hthumb : tempVideoPath ∉ fs → tempThumbPath ∉ fs) :
    tempVideoPath ∉ cleanupTemp fs ∧ tempThumbPath ∉ cleanupTemp fs := by
  unfold cleanupTemp
  by_cases hc : tempVideoPath ∈ fs
  · rw [if_pos (by simpa using List.elem_iff.mpr hc)]
    constructor
    · intro hm
      have := (mem_removeFile.mp hm).1
      exact (mem_removeFile.mp this).2 rfl
    · intro hm
      exact (mem_removeFile.mp hm).2 rfl
  · rw [if_neg (by simpa using fun hmm => hc (List.elem_iff.mp hmm))]
    exact ⟨hc, hthumb hc⟩

/-- Claim C9: video thumbnail generation removes the temporary source video
and the temporary thumbnail output on every exit path — success, download
failure, decode failure, and read failure alike (the oracle booleans cover
all four paths, including a failing decoder invocation that still produced
an output file). -/
theorem C9_temp_cleanup (downloadOk ffmpegOk ffmpegWrote : Bool)
    (fs : List String) (hv : tempVideoPath ∉ fs) (ht : tempThumbPath ∉ fs) :
    tempVideoPath ∉ (generateThumbnail downloadOk ffmpegOk ffmpegWrote fs).1 ∧
    tempThumbPath ∉ (generateThumbnail downloadOk ffmpegOk ffmpegWrote fs).1 := by
  unfold generateThumbnail
  cases downloadOk with
  | false => exact cleanupTemp_spec fs (fun _ => ht)
  | true =>
    have case1 : tempVideoPath ∉ cleanupTemp (tempVideoPath :: fs) ∧
        tempThumbPath ∉ cleanupTemp (tempVideoPath :: fs) :=
      cleanupTemp_spec _ (fun hno => absurd (List.mem_cons_self _ _) hno)
    have case2 : tempVideoPath ∉ cleanupTemp (tempThumbPath :: tempVideoPath :: fs) ∧
        tempThumbPath ∉ cleanupTemp (tempThumbPath :: tempVideoPath :: fs) :=
      cleanupTemp_spec _
        (fun hno => absurd (List.mem_cons_of_mem _ (List.mem_cons_self _ _)) hno)
    cases ffmpegOk <;> cases ffmpegWrote <;> first | exact case1 | exact case2

/-- Witness for C9: decoder failure that left an output file behind, on an
initially clean filesystem. -/
theorem C9_witness :
    tempVideoPath ∉ ([] : List String) ∧ tempThumbPath ∉ ([] : List String) ∧
    (tempVideoPath ∉ (generateThumbnail true false true []).1 ∧
      tempThumbPath ∉ (generateThumbnail true false true []).1) :=
  ⟨by decide, by decide, C9_temp_cleanup true false true [] (by decide) (by decide)⟩

/-! Helper lemmas for C6 -/

theorem bgStep_inv (st : BgState) (op : BgOp)
    (h : st.activeRuns = if st.backgroundIndexing then 1 else 0) :
    (bgStep st op).activeRuns =
      if (bgStep st op).backgroundIndexing then 1 else 0 := by
  cases op with
  | start =>
    unfold bgStep startBackgroundIndexing
    by_cases hb : st.backgroundIndexing
    · simp [hb, h]
    · simp [hb] at h
      simp [hb, h]
  | finishRun =>
    by_cases hb : st.backgroundIndexing <;> simp [bgStep, hb, h] at h ⊢ <;> omega
  | recordIndexed => simpa [bgStep] using h
  | recordFailed => simpa [bgStep] using h

theorem bgRun_inv (ops : List BgOp) :
    (bgRun ops).activeRuns = if (bgRun ops).backgroundIndexing then 1 else 0 := by
  unfold bgRun
  induction ops using List.reverseRecOn with
  | nil => rfl
  | append_singleton ops op ih =>
    rw [List.foldl_append, List.foldl_cons, List.foldl_nil]
    exact bgStep_inv _ op ih

/-- Claim C6: background indexing is a singleton — invoking the start while
a run is active returns the state unchanged (counters included), starts no
second run, queues nothing and raises nothing; and along every operation
sequence at most one background run is ever active. -/
theorem C6_background_singleton :
    (∀ st : BgState, st.backgroundIndexing = true →
      startBackgroundIndexing st =
        { state := st, started := false, queued := 0, errored := false }) ∧
    (∀ ops : List BgOp, (bgRun ops).activeRuns ≤ 1) := by
  constructor
  · intro st h
    unfold startBackgroundIndexing
    rw [h]
    simp
  · intro ops
    have h := bgRun_inv ops
    rw [h]
    split <;> omega

/-- Witness for C6: a busy state (active run with counters 5/2) and a
concrete operation sequence with a double start. -/
theorem C6_witness :
    (({ backgroundIndexing := true, activeRuns := 1, statIndexed := 5,
        statFailed := 2 } : BgState)).backgroundIndexing = true ∧
    startBackgroundIndexing
        { backgroundIndexing := true, activeRuns := 1, statIndexed := 5,
          statFailed := 2 } =
      { state :=
          { backgroundIndexing := true, activeRuns := 1, statIndexed := 5,
            statFailed := 2 }
        started := false, queued := 0, errored := false } ∧
    (bgRun [.start, .recordIndexed, .start, .recordFailed, .finishRun,
        .start]).activeRuns ≤ 1 :=
  ⟨rfl, C6_background_singleton.1 _ rfl, C6_background_singleton.2 _⟩

/-- Claim C5 (code bug, evaluated at the failing input): writing twice to
the same (remoteKey, artifactKind) — 10 bytes, then 20 bytes — leaves the
tracked size at 30 while the single live entry's sizes sum to 20: saveToCac
adds the new length without subtracting the overwritten entry's size, so
the invariant claimed for single-threaded sequences fails. -/
theorem C5_accounting_diverges_on_overwrite :
    (saveToCac "k" .thumbnail 20 2
        (saveToCac "k" .thumbnail 10 1 (initCache 100))).currentSize = 30 ∧
    sumSizes (saveToCac "k" .thumbnail 20 2
        (saveToCac "k" .thumbnail 10 1 (initCache 100))).entries = 20 ∧
    (saveToCac "k" .thumbnail 20 2
        (saveToCac "k" .thumbnail 10 1 (initCache 100))).currentSize ≠
      sumSizes (saveToCac "k" .thumbnail 20 2
        (saveToCac "k" .thumbnail 10 1 (initCache 100))).entries := by
  refine ⟨by decide, by decide, by decide⟩

/-! Helper lemmas for C4 -/

theorem sumSizes_cons (e : String × CacheEntry) (l : List (String × CacheEntry)) :
    sumSizes (e :: l) = (e.2.size : Int) + sumSizes l := by
  simp [sumSizes]

theorem evictLoop_size (l : List (String × CacheEntry)) (st : CacheState) :
    5 * (evictLoop l st).currentSize ≤ 4 * (st.sizeLimit : Int) ∨
    ((evictLoop l st).currentSize = st.currentSize - sumSizes l ∧
      (evictLoop l st).sizeLimit = st.sizeLimit) := by
  induction l generalizing st with
  | nil =>
    right
    constructor
    · simp [evictLoop, sumSizes]
    · rfl
  | cons e rest ih =>
    unfold evictLoop
    split
    · left
      assumption
    · have hrec := ih
        { st with
          entries := eraseEntry st.entries e.1
          currentSize := st.currentSize - (e.2.size : Int) }
      rcases hrec with h | ⟨h1, h2⟩
      · left
        exact h
      · right
        refine ⟨?_, h2⟩
        rw [h1, sumSizes_cons]
        ring

theorem sumSizes_sortByAccess (m : List (String × CacheEntry)) :
    sumSizes (sortByAccess m) = sumSizes m := by
  unfold sumSizes sortByAccess
  exact List.Perm.sum_eq (List.Perm.map _ (List.perm_insertionSort _ m))

/-- Claim C4 (amended): for every accounting-consistent cache state whose
tracked size exceeds the limit, the eviction pass walks entries in order of
least-recent access and stops as soon as the tracked size is at most the
low-water mark of 80 percent of the limit; afterwards the tracked size is
at most that low-water mark (it is not strictly between the mark and the
limit, and removing every entry — an empty cache — is possible). -/
theorem C4_eviction_low_water (st : CacheState)
    (hc : st.currentSize = sumSizes st.entries)
    (hover : (st.sizeLimit : Int) < st.currentSize) :
    5 * (evictIfNeeded st).currentSize ≤ 4 * (st.sizeLimit : Int) := by
  unfold evictIfNeeded
  rw [if_neg (by omega)]
  rcases evictLoop_size (sortByAccess st.entries) st with h | ⟨h1, _⟩
  · exact h
  · rw [h1, sumSizes_sortByAccess, ← hc]
    have : (0 : Int) ≤ (st.sizeLimit : Int) := Int.ofNat_nonneg st.sizeLimit
    omega

/-- Counterexample to C4 as stated: with limit 100 (low-water mark 80),
evicting from two 60-byte entries stops at tracked size 60, which is not
strictly between the low-water mark and the limit; and a single 150-byte
entry forces eviction to drain the cache to empty. -/
theorem C4_counterexample :
    ((saveToCac "b" .thumbnail 60 2
        (saveToCac "a" .thumbnail 60 1 (initCache 100))).currentSize = 60 ∧
      ¬(80 < (saveToCac "b" .thumbnail 60 2
        (saveToCac "a" .thumbnail 60 1 (initCache 100))).currentSize)) ∧
    ((saveToCac "a" .thumbnail 150 1 (initCache 100)).entries = [] ∧
      (saveToCac "a" .thumbnail 150 1 (initCache 100)).currentSize = 0) := by
  refine ⟨⟨by decide, by decide⟩, ⟨by decide, by decide⟩⟩

/-- Witness for the amended C4 at a concrete over-limit consistent state. -/
theorem C4_witness :
    cexCache.currentSize = sumSizes cexCache.entries ∧
    (cexCache.sizeLimit : Int) < cexCache.currentSize ∧
    5 * (evictIfNeeded cexCache).currentSize ≤ 4 * (cexCache.sizeLimit : Int) :=
  ⟨by decide, by decide, C4_eviction_low_water cexCache (by decide) (by decide)⟩

/-- Counterexample to C7 as stated: in a state holding the indexed record
p1 for key k/a.jpg together with a cached thumbnail artifact for that key,
the delete route succeeds and removes the record, yet the cached artifact
for the key is still present afterwards. -/
theorem C7_counterexample :
    (deletePhotoRoute "p1" cexSystem).2 = true ∧
    (deletePhotoRoute "p1" cexSystem).1.photos = [] ∧
    ((deletePhotoRoute "p1" cexSystem).1.cache.entries.any
      (fun q => q.1 == getCachePath "k/a.jpg" CacheKind.thumbnail)) = true := by
  refine ⟨by decide, by decide, by decide⟩

/-- Claim C7 (amended): a successful delete removes the remote object and
the metadata record, but performs no cache invalidation at all — the cache
state is untouched, so previously cached artifacts for the key remain until
eviction or an explicit cache clear. -/
theorem C7_delete_leaves_cache (sys : SystemState) (photoId : String)
    (photo : PhotoMetadata) (h : getPhotoById photoId sys.photos = some photo) :
    (deletePhotoRoute photoId sys).2 = true ∧
    (∀ r ∈ (deletePhotoRoute photoId sys).1.photos, r.id ≠ photoId) ∧
    photo.s3Key ∉ (deletePhotoRoute photoId sys).1.s3Keys ∧
    (deletePhotoRoute photoId sys).1.cache = sys.cache := by
  unfold deletePhotoRoute
  rw [h]
  refine ⟨rfl, ?_, ?_, rfl⟩
  · intro r hr
    simp only [deletePhoto, List.mem_filter, Bool.not_eq_true'] at hr
    simpa using hr.2
  · intro hm
    simp only [List.mem_filter, Bool.not_eq_true'] at hm
    simpa using hm.2

/-- Witness for the amended C7 at the concrete one-record system. -/
theorem C7_witness :
    getPhotoById "p1" cexSystem.photos = some (rowToPhoto cexRow) ∧
    ((deletePhotoRoute "p1" cexSystem).2 = true ∧
      (∀ r ∈ (deletePhotoRoute "p1" cexSystem).1.photos, r.id ≠ "p1") ∧
      (rowToPhoto cexRow).s3Key ∉ (deletePhotoRoute "p1" cexSystem).1.s3Keys ∧
      (deletePhotoRoute "p1" cexSystem).1.cache = cexSystem.cache) :=
  ⟨by decide, C7_delete_leaves_cache cexSystem "p1" (rowToPhoto cexRow) (by decide)⟩

/-! Helper lemmas for C8 -/

theorem updHasAny_false_elim (u : ExifUpdate) (h : updHasAny u = false) :
    u.createdAt = none ∧ u.width = none ∧ u.height = none ∧
    u.exif.bind ExifData.cameraMake = none ∧
    u.exif.bind ExifData.cameraModel = none ∧
    u.exif.bind ExifData.lensModel = none ∧
    u.exif.bind ExifData.focalLength = none ∧
    u.exif.bind ExifData.aperture = none ∧
    u.exif.bind ExifData.iso = none ∧
    u.exif.bind ExifData.shutterSpeed = none ∧
    u.exif.bind ExifData.exposureTime = none ∧
    u.exif.bind ExifData.latitude = none ∧
    u.exif.bind ExifData.longitude = none := by
  refine ⟨?_, ?_, ?_, ?_, ?_, ?_, ?_, ?_, ?_, ?_, ?_, ?_, ?_⟩
  · cases hcc : u.createdAt with
    | none => rfl
    | some t => simp [updHasAny, hcc] at h
  · cases hcc : u.width with
    | none => rfl
    | some t => simp [updHasAny, hcc] at h
  · cases hcc : u.height with
    | none => rfl
    | some t => simp [updHasAny, hcc] at h
  · cases he : u.exif with
    | none => rfl
    | some e =>
      cases hsf : e.cameraMake with
      | none => exact hsf
      | some v => simp [updHasAny, he, exifHasAny, hsf] at h
  · cases he : u.exif with
    | none => rfl
    | some e =>
      cases hsf : e.cameraModel with
      | none => exact hsf
      | some v => simp [updHasAny, he, exifHasAny, hsf] at h
  · cases he : u.exif with
    | none => rfl
    | some e =>
      cases hsf : e.lensModel with
      | none => exact hsf
      | some v => simp [updHasAny, he, exifHasAny, hsf] at h
  · cases he : u.exif with
    | none => rfl
    | some e =>
      cases hsf : e.focalLength with
      | none => exact hsf
      | some v => simp [updHasAny, he, exifHasAny, hsf] at h
  · cases he : u.exif with
    | none => rfl
    | some e =>
      cases hsf : e.aperture with
      | none => exact hsf
      | some v => simp [updHasAny, he, exifHasAny, hsf] at h
  · cases he : u.exif with
    | none => rfl
    | some e =>
      cases hsf : e.iso with
      | none => exact hsf
      | some v => simp [updHasAny, he, exifHasAny, hsf] at h
  · cases he : u.exif with
    | none => rfl
    | some e =>
      cases hsf : e.shutterSpeed with
      | none => exact hsf
      | some v => simp [updHasAny, he, exifHasAny, hsf] at h
  · cases he : u.exif with
    | none => rfl
    | some e =>
      cases hsf : e.exposureTime with
      | none => exact hsf
      | some v => simp [updHasAny, he, exifHasAny, hsf] at h
  · cases he : u.exif with
    | none => rfl
    | some e =>
      cases hsf : e.latitude with
      | none => exact hsf
      | some v => simp [updHasAny, he, exifHasAny, hsf] at h
  · cases he : u.exif with
    | none => rfl
    | some e =>
      cases hsf : e.longitude with
      | none => exact hsf
      | some v => simp [updHasAny, he, exifHasAny, hsf] at h

theorem patched_setCol {α : Type} (p cur : Option α) :
    Patched p cur (setCol p cur) := by
  cases p <;> simp [Patched, setCol]

theorem patched_refl {α : Type} (cur : Option α) :
    Patched (none : Option α) cur cur := by
  simp [Patched]

theorem applyExifUpdate_spec (u : ExifUpdate) (r : Row) :
    (applyExifUpdate u r).id = r.id ∧
    (applyExifUpdate u r).filename = r.filename ∧
    (applyExifUpdate u r).path = r.path ∧
    (applyExifUpdate u r).s3Key = r.s3Key ∧
    (applyExifUpdate u r).size = r.size ∧
    (applyExifUpdate u r).mimeType = r.mimeType ∧
    (applyExifUpdate u r).mtype = r.mtype ∧
    (applyExifUpdate u r).duration = r.duration ∧
    (applyExifUpdate u r).modifiedAt = r.modifiedAt ∧
    (applyExifUpdate u r).cached = r.cached ∧
    (u.createdAt = none → (applyExifUpdate u r).createdAt = r.createdAt) ∧
    (∀ t, u.createdAt = some t → (applyExifUpdate u r).createdAt = t) ∧
    Patched u.width r.width (applyExifUpdate u r).width ∧
    Patched u.height r.height (applyExifUpdate u r).height ∧
    Patched (u.exif.bind ExifData.cameraMake) r.cameraMake
      (applyExifUpdate u r).cameraMake ∧
    Patched (u.exif.bind ExifData.cameraModel) r.cameraModel
      (applyExifUpdate u r).cameraModel ∧
    Patched (u.exif.bind ExifData.lensModel) r.lensModel
      (applyExifUpdate u r).lensModel ∧
    Patched (u.exif.bind ExifData.focalLength) r.focalLength
      (applyExifUpdate u r).focalLength ∧
    Patched (u.exif.bind ExifData.aperture) r.aperture
      (applyExifUpdate u r).aperture ∧
    Patched (u.exif.bind ExifData.iso) r.iso (applyExifUpdate u r).iso ∧
    Patched (u.exif.bind ExifData.shutterSpeed) r.shutterSpeed
      (applyExifUpdate u r).shutterSpeed ∧
    Patched (u.exif.bind ExifData.exposureTime) r.exposureTime
      (applyExifUpdate u r).exposureTime ∧
    Patched (u.exif.bind ExifData.latitude) r.latitude
      (applyExifUpdate u r).latitude ∧
    Patched (u.exif.bind ExifData.longitude) r.longitude
      (applyExifUpdate u r).longitude := by
  unfold applyExifUpdate
  cases he : u.exif with
  | none =>
    exact ⟨rfl, rfl, rfl, rfl, rfl, rfl, rfl, rfl, rfl, rfl,
      fun hc => by rw [hc]; rfl, fun t ht => by rw [ht]; rfl,
      patched_setCol _ _, patched_setCol _ _,
      patched_refl _, patched_refl _, patched_refl _, patched_refl _,
      patched_refl _, patched_refl _, patched_refl _, patched_refl _,
      patched_refl _, patched_refl _⟩
  | some e =>
    exact ⟨rfl, rfl, rfl, rfl, rfl, rfl, rfl, rfl, rfl, rfl,
      fun hc => by rw [hc]; rfl, fun t ht => by rw [ht]; rfl,
      patched_setCol _ _, patched_setCol _ _,
      patched_setCol _ _, patched_setCol _ _, patched_setCol _ _,
      patched_setCol _ _, patched_setCol _ _, patched_setCol _ _,
      patched_setCol _ _, patched_setCol _ _, patched_setCol _ _,
      patched_setCol _ _⟩

/-- Claim C8: refinement writes exactly the supplied fields. The update
touches no row of another key and no row count; on the matching row exactly
the supplied patch fields (exif subfields, createdAt, width, height) are
overwritten and every other column is preserved; an all-absent patch
performs no write at all. -/
theorem C8_refine_frame (k : String) (u : ExifUpdate) (db : List Row) :
    (updHasAny u = false → updatePhotoExif k u db = db) ∧
    (updatePhotoExif k u db).length = db.length ∧
    (∀ i r, db.get? i = some r → r.s3Key ≠ k →
      (updatePhotoExif k u db).get? i = some r) ∧
    (∀ i r, db.get? i = some r → r.s3Key = k →
      ∃ r', (updatePhotoExif k u db).get? i = some r' ∧
        r'.id = r.id ∧ r'.filename = r.filename ∧ r'.path = r.path ∧
        r'.s3Key = r.s3Key ∧ r'.size = r.size ∧ r'.mimeType = r.mimeType ∧
        r'.mtype = r.mtype ∧ r'.duration = r.duration ∧
        r'.modifiedAt = r.modifiedAt ∧ r'.cached = r.cached ∧
        (u.createdAt = none → r'.createdAt = r.createdAt) ∧
        (∀ t, u.createdAt = some t → r'.createdAt = t) ∧
        Patched u.width r.width r'.width ∧
        Patched u.height r.height r'.height ∧
        Patched (u.exif.bind ExifData.cameraMake) r.cameraMake r'.cameraMake ∧
        Patched (u.exif.bind ExifData.cameraModel) r.cameraModel r'.cameraModel ∧
        Patched (u.exif.bind ExifData.lensModel) r.lensModel r'.lensModel ∧
        Patched (u.exif.bind ExifData.focalLength) r.focalLength r'.focalLength ∧
        Patched (u.exif.bind ExifData.aperture) r.aperture r'.aperture ∧
        Patched (u.exif.bind ExifData.iso) r.iso r'.iso ∧
        Patched (u.exif.bind ExifData.shutterSpeed) r.shutterSpeed r'.shutterSpeed ∧
        Patched (u.exif.bind ExifData.exposureTime) r.exposureTime r'.exposureTime ∧
        Patched (u.exif.bind ExifData.latitude) r.latitude r'.latitude ∧
        Patched (u.exif.bind ExifData.longitude) r.longitude r'.longitude) := by
  by_cases hu : updHasAny u = false
  · obtain ⟨hc, hw, hh, h1, h2, h3, h4, h5, h6, h7, h8, h9, h10⟩ :=
      updHasAny_false_elim u hu
    have heq : updatePhotoExif k u db = db := by
      unfold updatePhotoExif
      rw [hu]
      rfl
    rw [heq]
    refine ⟨fun _ => rfl, rfl, fun i r hg _ => hg, fun i r hg _ => ?_⟩
    refine ⟨r, hg, rfl, rfl, rfl, rfl, rfl, rfl, rfl, rfl, rfl, rfl,
      fun _ => rfl,
      fun t ht => absurd (hc.symm.trans ht) (fun hx => Option.noConfusion hx),
      by rw [hw]; exact patched_refl _,
      by rw [hh]; exact patched_refl _,
      by rw [h1]; exact patched_refl _,
      by rw [h2]; exact patched_refl _,
      by rw [h3]; exact patched_refl _,
      by rw [h4]; exact patched_refl _,
      by rw [h5]; exact patched_refl _,
      by rw [h6]; exact patched_refl _,
      by rw [h7]; exact patched_refl _,
      by rw [h8]; exact patched_refl _,
      by rw [h9]; exact patched_refl _,
      by rw [h10]; exact patched_refl _⟩
  · have hu' : updHasAny u = true := by revert hu; cases updHasAny u <;> simp
    have heq : updatePhotoExif k u db =
        db.map (fun r => if r.s3Key == k then applyExifUpdate u r else r) := by
      unfold updatePhotoExif
      rw [hu']
      rfl
    rw [heq]
    refine ⟨fun hfalse => Bool.noConfusion (hu'.symm.trans hfalse),
      List.length_map db _, ?_, ?_⟩
    · intro i r hg hne
      have hbeq : ¬((r.s3Key == k) = true) := by simpa using hne
      rw [List.get?_map, hg]
      simp only [Option.map_some']
      rw [if_neg hbeq]
    · intro i r hg hkey
      have hbeq : (r.s3Key == k) = true := by simpa using hkey
      have hget : (db.map
          (fun r => if r.s3Key == k then applyExifUpdate u r else r)).get? i =
          some (applyExifUpdate u r) := by
        rw [List.get?_map, hg]
        simp only [Option.map_some']
        rw [if_pos hbeq]
      exact ⟨applyExifUpdate u r, hget, applyExifUpdate_spec u r⟩

/-- Witness for C8: a two-row table, a patch supplying camera make and
width; exercised on the non-matching row, the matching row, and with the
empty patch. -/
theorem C8_witness :
    updatePhotoExif "k/a.jpg" emptyPatch [cexRow, cexRow2] = [cexRow, cexRow2] ∧
    (updatePhotoExif "k/a.jpg" cexPatch [cexRow, cexRow2]).get? 1 = some cexRow2 ∧
    (∃ r', (updatePhotoExif "k/a.jpg" cexPatch [cexRow, cexRow2]).get? 0 = some r' ∧
      r'.id = cexRow.id ∧ r'.filename = cexRow.filename ∧ r'.path = cexRow.path ∧
      r'.s3Key = cexRow.s3Key ∧ r'.size = cexRow.size ∧
      r'.mimeType = cexRow.mimeType ∧ r'.mtype = cexRow.mtype ∧
      r'.duration = cexRow.duration ∧ r'.modifiedAt = cexRow.modifiedAt ∧
      r'.cached = cexRow.cached ∧
      (cexPatch.createdAt = none → r'.createdAt = cexRow.createdAt) ∧
      (∀ t, cexPatch.createdAt = some t → r'.createdAt = t) ∧
      Patched cexPatch.width cexRow.width r'.width ∧
      Patched cexPatch.height cexRow.height r'.height ∧
      Patched (cexPatch.exif.bind ExifData.cameraMake) cexRow.cameraMake r'.cameraMake ∧
      Patched (cexPatch.exif.bind ExifData.cameraModel) cexRow.cameraModel r'.cameraModel ∧
      Patched (cexPatch.exif.bind ExifData.lensModel) cexRow.lensModel r'.lensModel ∧
      Patched (cexPatch.exif.bind ExifData.focalLength) cexRow.focalLength r'.focalLength ∧
      Patched (cexPatch.exif.bind ExifData.aperture) cexRow.aperture r'.aperture ∧
      Patched (cexPatch.exif.bind ExifData.iso) cexRow.iso r'.iso ∧
      Patched (cexPatch.exif.bind ExifData.shutterSpeed) cexRow.shutterSpeed r'.shutterSpeed ∧
      Patched (cexPatch.exif.bind ExifData.exposureTime) cexRow.exposureTime r'.exposureTime ∧
      Patched (cexPatch.exif.bind ExifData.latitude) cexRow.latitude r'.latitude ∧
      Patched (cexPatch.exif.bind ExifData.longitude) cexRow.longitude r'.longitude) :=
  ⟨(C8_refine_frame "k/a.jpg" emptyPatch [cexRow, cexRow2]).1 rfl,
   (C8_refine_frame "k/a.jpg" cexPatch [cexRow, cexRow2]).2.2.1 1 cexRow2 rfl
     (by decide),
   (C8_refine_frame "k/a.jpg" cexPatch [cexRow, cexRow2]).2.2.2 0 cexRow rfl rfl⟩

/-! Helper lemmas for C1 and C2: the find?, countP and Pairwise behaviour
of upsertPhoto and indexPhoto. -/

theorem find?_cons_pos (p : Row → Bool) (a : Row) (l : List Row)
    (h : p a = true) : List.find? p (a :: l) = some a := by
  simp only [List.find?]
  rw [h]

theorem find?_cons_neg (p : Row → Bool) (a : Row) (l : List Row)
    (h : p a = false) : List.find? p (a :: l) = List.find? p l := by
  simp only [List.find?]
  rw [h]

theorem find?_map_update (k : String) (f : Row → Row)
    (hf : ∀ r, (f r).s3Key = r.s3Key) (db : List Row) :
    (db.map (fun r => if r.s3Key == k then f r else r)).find?
        (fun r => r.s3Key == k) =
      (db.find? (fun r => r.s3Key == k)).map f := by
  induction db with
  | nil => rfl
  | cons r rest ih =>
    by_cases hb : (r.s3Key == k) = true
    · rw [List.map_cons, if_pos hb]
      rw [find?_cons_pos (fun x => x.s3Key == k) (f r) _
        (by show ((f r).s3Key == k) = true; rw [hf r]; exact hb)]
      rw [find?_cons_pos (fun x => x.s3Key == k) r rest hb]
      rfl
    · have hb' : (r.s3Key == k) = false := by
        revert hb
        cases (r.s3Key == k) <;> simp
      rw [List.map_cons, if_neg hb]
      rw [find?_cons_neg (fun x => x.s3Key == k) r _ hb']
      rw [find?_cons_neg (fun x => x.s3Key == k) r rest hb']
      exact ih

theorem find?_append_right {p : Row → Bool} {l1 l2 : List Row}
    (h : l1.find? p = none) : (l1 ++ l2).find? p = l2.find? p := by
  induction l1 with
  | nil => rfl
  | cons r rest ih =>
    have hp : p r = false := by
      by_contra habs
      have hp' : p r = true := by revert habs; cases p r <;> simp
      rw [find?_cons_pos p r rest hp'] at h
      cases h
    rw [find?_cons_neg p r rest hp] at h
    rw [List.cons_append, find?_cons_neg p r (rest ++ l2) hp]
    exact ih h

theorem any_eq_true_of_find?_some {p : Row → Bool} {l : List Row} {r : Row}
    (h : l.find? p = some r) : l.any p = true :=
  List.any_eq_true.mpr ⟨r, List.mem_of_find?_eq_some h, List.find?_some h⟩

theorem any_eq_false_of_find?_none {p : Row → Bool} {l : List Row}
    (h : l.find? p = none) : l.any p = false := by
  rw [List.any_eq_false]
  intro r hr hp
  exact absurd (List.find?_eq_none.mp h r hr) (by simp [hp])

theorem upsert_find_of_found (p : PhotoMetadata) (db : List Row) (k : String)
    (r0 : Row) (hpk : p.s3Key = k)
    (h : db.find? (fun x => x.s3Key == k) = some r0) :
    (upsertPhoto p db).find? (fun x => x.s3Key == k) =
      some (updateRow p r0) := by
  subst hpk
  unfold upsertPhoto
  rw [if_pos (any_eq_true_of_find?_some h)]
  rw [find?_map_update p.s3Key (updateRow p) (fun _ => rfl) db, h]
  rfl

theorem upsert_find_of_absent (p : PhotoMetadata) (db : List Row) (k : String)
    (hpk : p.s3Key = k)
    (h : db.find? (fun x => x.s3Key == k) = none) :
    (upsertPhoto p db).find? (fun x => x.s3Key == k) = some (toRow p) := by
  subst hpk
  unfold upsertPhoto
  rw [if_neg (by rw [any_eq_false_of_find?_none h]; exact Bool.noConfusion)]
  rw [find?_append_right h]
  exact find?_cons_pos _ _ _ (by simp [toRow])

theorem countKey_map_preserve (k : String) (g : Row → Row)
    (hg : ∀ r, (g r).s3Key = r.s3Key) (db : List Row) :
    countKey k (db.map g) = countKey k db := by
  unfold countKey
  induction db with
  | nil => rfl
  | cons r rest ih =>
    rw [List.map_cons, List.countP_cons, List.countP_cons, ih, hg r]

theorem countKey_eq_zero_of_find?_none {k : String} {db : List Row}
    (h : db.find? (fun r => r.s3Key == k) = none) : countKey k db = 0 := by
  unfold countKey
  rw [List.countP_eq_zero]
  intro r hr
  exact fun hp => absurd (List.find?_eq_none.mp h r hr) (by simp [hp])

theorem countKey_upsert_absent (p : PhotoMetadata) (db : List Row) (k : String)
    (hpk : p.s3Key = k)
    (h : db.find? (fun x => x.s3Key == k) = none) :
    countKey k (upsertPhoto p db) = countKey k db + 1 := by
  subst hpk
  unfold upsertPhoto
  rw [if_neg (by rw [any_eq_false_of_find?_none h]; exact Bool.noConfusion)]
  unfold countKey
  rw [List.countP_append]
  have hsingle : List.countP (fun r => r.s3Key == p.s3Key) [toRow p] = 1 := by
    rw [List.countP_cons]
    simp [toRow]
  rw [hsingle]

theorem countKey_upsert_found (p : PhotoMetadata) (db : List Row) (k : String)
    (r0 : Row) (hpk : p.s3Key = k)
    (h : db.find? (fun x => x.s3Key == k) = some r0) :
    countKey k (upsertPhoto p db) = countKey k db := by
  subst hpk
  unfold upsertPhoto
  rw [if_pos (any_eq_true_of_find?_some h)]
  refine countKey_map_preserve p.s3Key
    (fun r => if r.s3Key == p.s3Key then updateRow p r else r) ?_ db
  intro r
  show (if (r.s3Key == p.s3Key) = true then updateRow p r else r).s3Key = r.s3Key
  by_cases hb : (r.s3Key == p.s3Key) = true
  · rw [if_pos hb]
    rfl
  · rw [if_neg hb]

theorem countKey_eq_one_of_found {k : String} {db : List Row} {r0 : Row}
    (hpw : db.Pairwise (fun a b => a.s3Key ≠ b.s3Key))
    (h : db.find? (fun r => r.s3Key == k) = some r0) : countKey k db = 1 := by
  induction db with
  | nil => cases h
  | cons r rest ih =>
    have hhead := List.pairwise_cons.mp hpw
    by_cases hb : (r.s3Key == k) = true
    · have hrk : r.s3Key = k := by simpa using hb
      have hzero : List.countP (fun b => b.s3Key == k) rest = 0 := by
        rw [List.countP_eq_zero]
        intro b hb' hpb
        have hkb : b.s3Key = k := by simpa using hpb
        exact hhead.1 b hb' (hrk.trans hkb.symm)
      unfold countKey
      rw [List.countP_cons, hzero, hb]
      rfl
    · have hbf : (r.s3Key == k) = false := by
        revert hb
        cases (r.s3Key == k) <;> simp
      rw [find?_cons_neg (fun x => x.s3Key == k) r rest hbf] at h
      have hone := ih hhead.2 h
      unfold countKey at hone
      unfold countKey
      rw [List.countP_cons, hone, hbf]
      rfl

theorem upsert_pairwise (p : PhotoMetadata) (db : List Row)
    (hpw : db.Pairwise (fun a b => a.s3Key ≠ b.s3Key)) :
    (upsertPhoto p db).Pairwise (fun a b => a.s3Key ≠ b.s3Key) := by
  unfold upsertPhoto
  by_cases hany : db.any (fun r => r.s3Key == p.s3Key) = true
  · rw [if_pos hany]
    rw [List.pairwise_map]
    refine hpw.imp_of_mem ?_
    intro a b _ _ hab
    by_cases ha : (a.s3Key == p.s3Key) = true <;>
      by_cases hb : (b.s3Key == p.s3Key) = true <;>
      simp only [ha, hb, if_pos, if_neg, if_true, if_false] <;>
      simpa using hab
  · rw [if_neg hany]
    rw [List.pairwise_append]
    refine ⟨hpw, List.pairwise_singleton _ _, ?_⟩
    intro a ha b hb
    have hb' : b = toRow p := List.mem_singleton.mp hb
    rw [hb']
    have : ¬((a.s3Key == p.s3Key) = true) := by
      intro habs
      exact hany (List.any_eq_true.mpr ⟨a, ha, habs⟩)
    simpa [toRow] using this

theorem indexPhoto_eq_of_upToDate (acc : DateAccuracy)
    (o : Option (Option ParsedExif)) (nid : String) (obj : S3Object)
    (db : List Row) (r0 : Row)
    (hf : db.find? (fun x => x.s3Key == obj.key) = some r0)
    (hm : r0.modifiedAt = obj.lastModified) :
    indexPhoto acc o nid obj db = db := by
  unfold indexPhoto getPhotoByS3Key
  rw [hf]
  show (if (rowToPhoto r0).modifiedAt = obj.lastModified then db
      else upsertPhoto (buildPhoto acc o nid obj (some (rowToPhoto r0))) db) = db
  exact if_pos hm

theorem indexPhoto_eq_of_stale (acc : DateAccuracy)
    (o : Option (Option ParsedExif)) (nid : String) (obj : S3Object)
    (db : List Row) (r0 : Row)
    (hf : db.find? (fun x => x.s3Key == obj.key) = some r0)
    (hm : r0.modifiedAt ≠ obj.lastModified) :
    indexPhoto acc o nid obj db =
      upsertPhoto (buildPhoto acc o nid obj (some (rowToPhoto r0))) db := by
  unfold indexPhoto getPhotoByS3Key
  rw [hf]
  show (if (rowToPhoto r0).modifiedAt = obj.lastModified then db
      else upsertPhoto (buildPhoto acc o nid obj (some (rowToPhoto r0))) db) = _
  exact if_neg hm

theorem indexPhoto_eq_of_new (acc : DateAccuracy)
    (o : Option (Option ParsedExif)) (nid : String) (obj : S3Object)
    (db : List Row) (hf : db.find? (fun x => x.s3Key == obj.key) = none) :
    indexPhoto acc o nid obj db = upsertPhoto (buildPhoto acc o nid obj none) db := by
  unfold indexPhoto getPhotoByS3Key
  rw [hf]
  rfl

theorem indexPhoto_find (acc : DateAccuracy) (o : Option (Option ParsedExif))
    (nid : String) (obj : S3Object) (db : List Row) :
    ∃ r, (indexPhoto acc o nid obj db).find? (fun x => x.s3Key == obj.key) =
        some r ∧ r.modifiedAt = obj.lastModified := by
  cases hf : db.find? (fun x => x.s3Key == obj.key) with
  | none =>
    rw [indexPhoto_eq_of_new acc o nid obj db hf]
    exact ⟨toRow (buildPhoto acc o nid obj none),
      upsert_find_of_absent (buildPhoto acc o nid obj none) db obj.key rfl hf,
      rfl⟩
  | some r0 =>
    by_cases hm : r0.modifiedAt = obj.lastModified
    · rw [indexPhoto_eq_of_upToDate acc o nid obj db r0 hf hm]
      exact ⟨r0, hf, hm⟩
    · rw [indexPhoto_eq_of_stale acc o nid obj db r0 hf hm]
      exact ⟨updateRow (buildPhoto acc o nid obj (some (rowToPhoto r0))) r0,
        upsert_find_of_found (buildPhoto acc o nid obj (some (rowToPhoto r0)))
          db obj.key r0 rfl hf,
        rfl⟩

theorem indexPhoto_countKey (acc : DateAccuracy) (o : Option (Option ParsedExif))
    (nid : String) (obj : S3Object) (db : List Row)
    (hpw : db.Pairwise (fun a b => a.s3Key ≠ b.s3Key)) :
    countKey obj.key (indexPhoto acc o nid obj db) = 1 := by
  cases hf : db.find? (fun x => x.s3Key == obj.key) with
  | none =>
    rw [indexPhoto_eq_of_new acc o nid obj db hf]
    rw [countKey_upsert_absent (buildPhoto acc o nid obj none) db obj.key rfl hf]
    rw [countKey_eq_zero_of_find?_none hf]
  | some r0 =>
    by_cases hm : r0.modifiedAt = obj.lastModified
    · rw [indexPhoto_eq_of_upToDate acc o nid obj db r0 hf hm]
      exact countKey_eq_one_of_found hpw hf
    · rw [indexPhoto_eq_of_stale acc o nid obj db r0 hf hm]
      rw [countKey_upsert_found
        (buildPhoto acc o nid obj (some (rowToPhoto r0))) db obj.key r0 rfl hf]
      exact countKey_eq_one_of_found hpw hf

theorem indexPhoto_pairwise (acc : DateAccuracy) (o : Option (Option ParsedExif))
    (nid : String) (obj : S3Object) (db : List Row)
    (hpw : db.Pairwise (fun a b => a.s3Key ≠ b.s3Key)) :
    (indexPhoto acc o nid obj db).Pairwise (fun a b => a.s3Key ≠ b.s3Key) := by
  cases hf : db.find? (fun x => x.s3Key == obj.key) with
  | none =>
    rw [indexPhoto_eq_of_new acc o nid obj db hf]
    exact upsert_pairwise _ db hpw
  | some r0 =>
    by_cases hm : r0.modifiedAt = obj.lastModified
    · rw [indexPhoto_eq_of_upToDate acc o nid obj db r0 hf hm]
      exact hpw
    · rw [indexPhoto_eq_of_stale acc o nid obj db r0 hf hm]
      exact upsert_pairwise _ db hpw

/-- Claim C1: indexing is idempotent. After indexing an object once (under
any date-accuracy mode, oracle outcome and fresh id), the catalog holds
exactly one row for its key; indexing the same unchanged object a second
time (again under any mode, oracle and id) returns the catalog unchanged,
every field included; and whenever the stored modifiedAt already equals the
object's lastModified, indexPhoto applies no write at all. -/
theorem C1_indexing_idempotent (acc1 acc2 : DateAccuracy)
    (o1 o2 : Option (Option ParsedExif)) (nid1 nid2 : String) (obj : S3Object)
    (db : List Row) (hpw : db.Pairwise (fun a b => a.s3Key ≠ b.s3Key)) :
    countKey obj.key (indexPhoto acc1 o1 nid1 obj db) = 1 ∧
    indexPhoto acc2 o2 nid2 obj (indexPhoto acc1 o1 nid1 obj db) =
      indexPhoto acc1 o1 nid1 obj db ∧
    (∀ ex, getPhotoByS3Key obj.key db = some ex →
      ex.modifiedAt = obj.lastModified → indexPhoto acc1 o1 nid1 obj db = db) := by
  obtain ⟨r, hr, hm⟩ := indexPhoto_find acc1 o1 nid1 obj db
  refine ⟨indexPhoto_countKey acc1 o1 nid1 obj db hpw,
    indexPhoto_eq_of_upToDate acc2 o2 nid2 obj _ r hr hm, ?_⟩
  intro ex hex hmod
  unfold getPhotoByS3Key at hex
  cases hf : db.find? (fun x => x.s3Key == obj.key) with
  | none =>
    rw [hf] at hex
    cases hex
  | some r0 =>
    rw [hf] at hex
    have hex' : rowToPhoto r0 = ex := by simpa using hex
    refine indexPhoto_eq_of_upToDate acc1 o1 nid1 obj db r0 hf ?_
    have : (rowToPhoto r0).modifiedAt = obj.lastModified := by
      rw [hex']
      exact hmod
    exact this

/-- Witness for C1: a fresh 100-byte object indexed twice into an empty
catalog under folders mode. -/
theorem C1_witness :
    countKey "photos/2023/05/a.jpg"
      (indexPhoto .folders none "u1" ⟨"photos/2023/05/a.jpg", 100, 5⟩ []) = 1 ∧
    indexPhoto .folders none "u2" ⟨"photos/2023/05/a.jpg", 100, 5⟩
        (indexPhoto .folders none "u1" ⟨"photos/2023/05/a.jpg", 100, 5⟩ []) =
      indexPhoto .folders none "u1" ⟨"photos/2023/05/a.jpg", 100, 5⟩ [] :=
  ⟨(C1_indexing_idempotent .folders .folders none none "u1" "u2"
      ⟨"photos/2023/05/a.jpg", 100, 5⟩ [] List.Pairwise.nil).1,
   (C1_indexing_idempotent .folders .folders none none "u1" "u2"
      ⟨"photos/2023/05/a.jpg", 100, 5⟩ [] List.Pairwise.nil).2.1⟩

/-- Claim C2: upsert updates in place. Index the key once from a listing
with lastModified t1 and size s1, then again with lastModified t2 greater
than t1 and a different size s2: the catalog still holds exactly one row
for the key, whose size is s2 and modifiedAt is t2, and its id is the id
the row had after the first indexing (the conflict update never touches the
id column). -/
theorem C2_upsert_in_place (acc1 acc2 : DateAccuracy)
    (o1 o2 : Option (Option ParsedExif)) (nid1 nid2 : String) (k : String)
    (s1 s2 : Nat) (t1 t2 : Int) (db : List Row)
    (hpw : db.Pairwise (fun a b => a.s3Key ≠ b.s3Key))
    (ht : t1 < t2) (hs : s1 ≠ s2) :
    ∃ r1 r2,
      (indexPhoto acc1 o1 nid1 ⟨k, s1, t1⟩ db).find?
        (fun x => x.s3Key == k) = some r1 ∧
      (indexPhoto acc2 o2 nid2 ⟨k, s2, t2⟩
          (indexPhoto acc1 o1 nid1 ⟨k, s1, t1⟩ db)).find?
        (fun x => x.s3Key == k) = some r2 ∧
      r2.size = s2 ∧ r2.modifiedAt = t2 ∧ r2.id = r1.id ∧
      countKey k (indexPhoto acc2 o2 nid2 ⟨k, s2, t2⟩
        (indexPhoto acc1 o1 nid1 ⟨k, s1, t1⟩ db)) = 1 := by
  obtain ⟨r1, hr1, hm1⟩ := indexPhoto_find acc1 o1 nid1 ⟨k, s1, t1⟩ db
  have hpw1 := indexPhoto_pairwise acc1 o1 nid1 ⟨k, s1, t1⟩ db hpw
  have hne : r1.modifiedAt ≠ (⟨k, s2, t2⟩ : S3Object).lastModified := by
    rw [hm1]
    exact ne_of_lt ht
  have heq2 := indexPhoto_eq_of_stale acc2 o2 nid2 ⟨k, s2, t2⟩ _ r1 hr1 hne
  refine ⟨r1,
    updateRow (buildPhoto acc2 o2 nid2 ⟨k, s2, t2⟩ (some (rowToPhoto r1))) r1,
    hr1, ?_, rfl, rfl, rfl, ?_⟩
  · rw [heq2]
    exact upsert_find_of_found _ _ k r1 rfl hr1
  · exact indexPhoto_countKey acc2 o2 nid2 ⟨k, s2, t2⟩ _ hpw1

/-- Witness for C2: key a/b.jpg indexed at (t1 = 5, s1 = 1000) then
re-listed at (t2 = 9, s2 = 2000), starting from the empty catalog. -/
theorem C2_witness :
    ∃ r1 r2,
      (indexPhoto .folders none "u1" ⟨"a/b.jpg", 1000, 5⟩ []).find?
        (fun x => x.s3Key == "a/b.jpg") = some r1 ∧
      (indexPhoto .dnone none "u2" ⟨"a/b.jpg", 2000, 9⟩
          (indexPhoto .folders none "u1" ⟨"a/b.jpg", 1000, 5⟩ [])).find?
        (fun x => x.s3Key == "a/b.jpg") = some r2 ∧
      r2.size = 2000 ∧ r2.modifiedAt = 9 ∧ r2.id = r1.id ∧
      countKey "a/b.jpg" (indexPhoto .dnone none "u2" ⟨"a/b.jpg", 2000, 9⟩
        (indexPhoto .folders none "u1" ⟨"a/b.jpg", 1000, 5⟩ [])) = 1 :=
  C2_upsert_in_place .folders .dnone none none "u1" "u2" "a/b.jpg" 1000 2000
    5 9 [] List.Pairwise.nil (by decide) (by decide)

/-! Helper lemmas for C3: soundness and completeness of the three scans of
extractDateFromPath with respect to the occurrence predicates. -/

theorem digitVal_inv {c : Char} {d : Nat} (h : digitVal c = some d) :
    d ≤ 9 ∧ digitChar10 d = c := by
  unfold digitVal at h
  split_ifs at h with h0 h1 h2 h3 h4 h5 h6 h7 h8 h9 <;>
    first
      | (injection h with h'
         subst h'
         subst_vars
         exact ⟨by omega, rfl⟩)
      | cases h

theorem digitVal_digitChar10 {d : Nat} (h : d ≤ 9) :
    digitVal (digitChar10 d) = some d := by
  interval_cases d <;> rfl

theorem yStr_eq {x y z w : Nat} (hx : x ≤ 9) (hy : y ≤ 9) (hz : z ≤ 9)
    (hw : w ≤ 9) :
    yStr (1000 * x + 100 * y + 10 * z + w) =
      [digitChar10 x, digitChar10 y, digitChar10 z, digitChar10 w] := by
  unfold yStr
  have e1 : (1000 * x + 100 * y + 10 * z + w) / 1000 % 10 = x := by omega
  have e2 : (1000 * x + 100 * y + 10 * z + w) / 100 % 10 = y := by omega
  have e3 : (1000 * x + 100 * y + 10 * z + w) / 10 % 10 = z := by omega
  have e4 : (1000 * x + 100 * y + 10 * z + w) % 10 = w := by omega
  rw [e1, e2, e3, e4]

theorem pad2_eq {x y : Nat} (hx : x ≤ 9) (hy : y ≤ 9) :
    pad2 (10 * x + y) = [digitChar10 x, digitChar10 y] := by
  unfold pad2
  have e1 : (10 * x + y) / 10 % 10 = x := by omega
  have e2 : (10 * x + y) % 10 = y := by omega
  rw [e1, e2]

theorem boundary_disj {oc : Option Char} (h : boundaryOk oc = true) :
    oc = none ∨ ∃ c, oc = some c ∧ isWordChar c = false := by
  cases oc with
  | none => exact Or.inl rfl
  | some c =>
    refine Or.inr ⟨c, rfl, ?_⟩
    simp only [boundaryOk] at h
    cases hw : isWordChar c
    · rfl
    · rw [hw] at h
      cases h

theorem yearHere_sound {prev : Option Char} {l : List Char} {v : Nat}
    (h : yearHere prev l = some v) :
    1900 ≤ v ∧ v ≤ 2099 ∧ boundaryOk prev = true ∧
    ∃ rest, l = yStr v ++ rest ∧ boundaryOk rest.head? = true := by
  unfold yearHere at h
  split at h
  case h_2 => cases h
  case h_1 a b c d rest =>
    split at h
    case h_2 => cases h
    case h_1 x y z w hx hy hz hw =>
      split at h
      case isFalse => cases h
      case isTrue hcond =>
        injection h with h'
        subst h'
        obtain ⟨hbx, hdig⟩ := digitVal_inv hx
        obtain ⟨hby, hdigy⟩ := digitVal_inv hy
        obtain ⟨hbz, hdigz⟩ := digitVal_inv hz
        obtain ⟨hbw, hdigw⟩ := digitVal_inv hw
        obtain ⟨hb1, hrange, hb2⟩ := hcond
        refine ⟨by omega, by omega, hb1, rest, ?_, hb2⟩
        rw [yStr_eq hbx hby hbz hbw, hdig, hdigy, hdigz, hdigw]
        rfl

theorem ctxPrev_nil (prev : Option Char) : ctxPrev prev [] = prev := rfl

theorem getLast?_cons_ne_none (d : Char) (t : List Char) :
    (d :: t).getLast? ≠ none := by
  induction t generalizing d with
  | nil => simp
  | cons e t' ih =>
    rw [List.getLast?_cons_cons]
    exact ih e

theorem ctxPrev_cons (prev : Option Char) (c : Char) (pre : List Char) :
    ctxPrev prev (c :: pre) = ctxPrev (some c) pre := by
  unfold ctxPrev
  cases pre with
  | nil => rfl
  | cons d t =>
    rw [List.getLast?_cons_cons]
    cases hg : (d :: t).getLast? with
    | some x => rfl
    | none => exact absurd hg (getLast?_cons_ne_none d t)

theorem ctxPrev_none_eq (pre : List Char) : ctxPrev none pre = pre.getLast? := by
  unfold ctxPrev
  cases pre.getLast? <;> rfl

theorem scanPrev_sound {prev : Option Char} {l : List Char} {v : Nat}
    (h : scanPrev prev l = some v) :
    ∃ pre suf, l = pre ++ suf ∧ yearHere (ctxPrev prev pre) suf = some v := by
  induction l generalizing prev with
  | nil => cases h
  | cons c rest ih =>
    unfold scanPrev at h
    cases hy : yearHere prev (c :: rest) with
    | some w =>
      simp only [hy] at h
      injection h with h'
      subst h'
      exact ⟨[], c :: rest, rfl, hy⟩
    | none =>
      simp only [hy] at h
      obtain ⟨pre, suf, heq, hyear⟩ := ih h
      refine ⟨c :: pre, suf, by rw [List.cons_append, heq], ?_⟩
      rw [ctxPrev_cons]
      exact hyear

theorem findYear_sound {l : List Char} {y : Nat} (h : findYear l = some y) :
    yearOccurs y l := by
  obtain ⟨pre, suf, heq, hyear⟩ := scanPrev_sound h
  obtain ⟨hy1, hy2, hb, rest, hsuf, hrest⟩ := yearHere_sound hyear
  refine ⟨hy1, hy2, pre, rest, by rw [heq, hsuf, List.append_assoc], ?_, ?_⟩
  · rw [ctxPrev_none_eq] at hb
    exact boundary_disj hb
  · exact boundary_disj hrest

theorem scanTails_sound {p : List Char → Option Nat} {l : List Char} {v : Nat}
    (h : scanTails p l = some v) :
    ∃ pre suf, l = pre ++ suf ∧ p suf = some v := by
  induction l with
  | nil => cases h
  | cons c rest ih =>
    unfold scanTails at h
    cases hp : p (c :: rest) with
    | some w =>
      simp only [hp] at h
      injection h with h'
      subst h'
      exact ⟨[], c :: rest, rfl, hp⟩
    | none =>
      simp only [hp] at h
      obtain ⟨pre, suf, heq, hsuf⟩ := ih h
      exact ⟨c :: pre, suf, by rw [List.cons_append, heq], hsuf⟩

theorem scanTails_complete {p : List Char → Option Nat} (hnil : p [] = none) :
    ∀ pre l : List Char, scanTails p l = none →
      ∀ suf : List Char, l = pre ++ suf → p suf = none := by
  intro pre
  induction pre with
  | nil =>
    intro l h suf heq
    simp only [List.nil_append] at heq
    subst heq
    cases l with
    | nil => exact hnil
    | cons c rest =>
      simp only [scanTails] at h
      cases hp : p (c :: rest) with
      | some w => simp only [hp] at h; exact h
      | none => rfl
  | cons c pre' ih =>
    intro l h suf heq
    simp only [List.cons_append] at heq
    subst heq
    simp only [scanTails] at h
    cases hp : p (c :: (pre' ++ suf)) with
    | some w => simp only [hp] at h; cases h
    | none =>
      simp only [hp] at h
      exact ih (pre' ++ suf) h suf rfl

theorem monthHere_sound {ys l : List Char} {m : Nat}
    (h : monthHere ys l = some m) :
    1 ≤ m ∧ m ≤ 12 ∧ ∃ sep t, isSep sep = true ∧
      l = ys ++ sep :: (pad2 m ++ t) := by
  unfold monthHere at h
  split at h
  case isFalse => cases h
  case isTrue hpre =>
    obtain ⟨t0, ht0⟩ := List.isPrefixOf_iff_prefix.mp hpre
    split at h
    case h_2 => cases h
    case h_1 s a b t heq =>
      split at h
      case isFalse => cases h
      case isTrue hsep =>
        split at h
        case h_2 => cases h
        case h_1 x y hx hy =>
          split at h
          case isFalse => cases h
          case isTrue hrange =>
            injection h with h'
            subst h'
            obtain ⟨hbx, hdx⟩ := digitVal_inv hx
            obtain ⟨hby, hdy⟩ := digitVal_inv hy
            refine ⟨hrange.1, hrange.2, s, t, hsep, ?_⟩
            rw [pad2_eq hbx hby, hdx, hdy]
            rw [← ht0]
            rw [← ht0] at heq
            rw [List.drop_left] at heq
            rw [heq]
            rfl

theorem monthHere_complete (ys : List Char) (sep : Char) (m : Nat)
    (post : List Char) (hsep : isSep sep = true) (h1 : 1 ≤ m) (h2 : m ≤ 12) :
    monthHere ys (ys ++ sep :: (pad2 m ++ post)) = some m := by
  unfold monthHere
  rw [if_pos (List.isPrefixOf_iff_prefix.mpr (List.prefix_append ys _))]
  rw [List.drop_left]
  have hx : m / 10 % 10 ≤ 9 := by omega
  have hy : m % 10 ≤ 9 := by omega
  show (match sep :: (pad2 m ++ post) with
    | s :: a :: b :: _ =>
      if isSep s = true then
        match digitVal a, digitVal b with
        | some x, some y =>
          if 1 ≤ 10 * x + y ∧ 10 * x + y ≤ 12 then some (10 * x + y) else none
        | _, _ => none
      else none
    | _ => none) = some m
  rw [show pad2 m ++ post = digitChar10 (m / 10 % 10) :: digitChar10 (m % 10)
      :: post from rfl]
  show (if isSep sep = true then
      match digitVal (digitChar10 (m / 10 % 10)), digitVal (digitChar10 (m % 10)) with
      | some x, some y =>
        if 1 ≤ 10 * x + y ∧ 10 * x + y ≤ 12 then some (10 * x + y) else none
      | _, _ => none
    else none) = some m
  rw [if_pos hsep, digitVal_digitChar10 hx, digitVal_digitChar10 hy]
  have hm : 10 * (m / 10 % 10) + m % 10 = m := by omega
  show (if 1 ≤ 10 * (m / 10 % 10) + m % 10 ∧ 10 * (m / 10 % 10) + m % 10 ≤ 12
      then some (10 * (m / 10 % 10) + m % 10) else none) = some m
  rw [hm]
  exact if_pos ⟨h1, h2⟩

theorem findMonth_sound {y m : Nat} {l : List Char}
    (h : findMonth y l = some m) : monthFollows y m l := by
  obtain ⟨pre, suf, heq, hmh⟩ := scanTails_sound h
  obtain ⟨h1, h2, sep, t, hsep, hsuf⟩ := monthHere_sound hmh
  exact ⟨h1, h2, pre, t, sep, hsep,
    by rw [heq, hsuf, List.append_assoc]⟩

theorem monthHere_nil (ys : List Char) (hys : ys ≠ []) :
    monthHere ys [] = none := by
  unfold monthHere
  rw [if_neg]
  intro habs
  obtain ⟨t0, ht0⟩ := List.isPrefixOf_iff_prefix.mp habs
  cases ys with
  | nil => exact hys rfl
  | cons a t => cases ht0

theorem yStr_ne_nil (y : Nat) : yStr y ≠ [] := by
  unfold yStr
  intro h
  cases h

theorem findMonth_complete {y : Nat} {l : List Char}
    (h : findMonth y l = none) : ∀ m, ¬ monthFollows y m l := by
  intro m hmf
  obtain ⟨h1, h2, pre, post, sep, hsep, heq⟩ := hmf
  have hsuf := scanTails_complete (monthHere_nil (yStr y) (yStr_ne_nil y)) pre
    l h (yStr y ++ sep :: (pad2 m ++ post)) (by rw [heq, List.append_assoc])
  rw [monthHere_complete (yStr y) sep m post hsep h1 h2] at hsuf
  cases hsuf

theorem dayHere_sound {ys ms l : List Char} {d : Nat}
    (h : dayHere ys ms l = some d) :
    1 ≤ d ∧ d ≤ 31 ∧ ∃ s1 s2 t, isSep s1 = true ∧ isSep s2 = true ∧
      l = ys ++ s1 :: (ms ++ s2 :: (pad2 d ++ t)) := by
  unfold dayHere at h
  split at h
  case isFalse => cases h
  case isTrue hpre =>
    obtain ⟨t0, ht0⟩ := List.isPrefixOf_iff_prefix.mp hpre
    split at h
    case h_2 => cases h
    case h_1 s1 t1 heq =>
      split at h
      case isFalse => cases h
      case isTrue hcond =>
        obtain ⟨t2, ht2⟩ := List.isPrefixOf_iff_prefix.mp hcond.2
        split at h
        case h_2 => cases h
        case h_1 s2 a b t heq2 =>
          split at h
          case isFalse => cases h
          case isTrue hsep2 =>
            split at h
            case h_2 => cases h
            case h_1 x y hx hy =>
              split at h
              case isFalse => cases h
              case isTrue hrange =>
                injection h with h'
                subst h'
                obtain ⟨hbx, hdx⟩ := digitVal_inv hx
                obtain ⟨hby, hdy⟩ := digitVal_inv hy
                refine ⟨hrange.1, hrange.2, s1, s2, t, hcond.1, hsep2, ?_⟩
                rw [pad2_eq hbx hby, hdx, hdy]
                rw [← ht0] at heq
                rw [List.drop_left] at heq
                rw [← ht2] at heq2
                rw [List.drop_left] at heq2
                rw [← ht0, heq, ← ht2, heq2]
                rfl

theorem dayHere_complete (ys ms : List Char) (s1 s2 : Char) (d : Nat)
    (post : List Char) (hs1 : isSep s1 = true) (hs2 : isSep s2 = true)
    (h1 : 1 ≤ d) (h2 : d ≤ 31) :
    dayHere ys ms (ys ++ s1 :: (ms ++ s2 :: (pad2 d ++ post))) = some d := by
  unfold dayHere
  rw [if_pos (List.isPrefixOf_iff_prefix.mpr (List.prefix_append ys _))]
  rw [List.drop_left]
  show (if isSep s1 = true ∧ ms.isPrefixOf (ms ++ s2 :: (pad2 d ++ post)) = true
      then
        match (ms ++ s2 :: (pad2 d ++ post)).drop ms.length with
        | s2 :: a :: b :: _ =>
          if isSep s2 = true then
            match digitVal a, digitVal b with
            | some x, some y =>
              if 1 ≤ 10 * x + y ∧ 10 * x + y ≤ 31 then some (10 * x + y)
              else none
            | _, _ => none
          else none
        | _ => none
      else none) = some d
  rw [if_pos ⟨hs1,
    List.isPrefixOf_iff_prefix.mpr (List.prefix_append ms _)⟩]
  rw [List.drop_left]
  have hx : d / 10 % 10 ≤ 9 := by omega
  have hy : d % 10 ≤ 9 := by omega
  show (if isSep s2 = true then
      match digitVal (digitChar10 (d / 10 % 10)), digitVal (digitChar10 (d % 10)) with
      | some x, some y =>
        if 1 ≤ 10 * x + y ∧ 10 * x + y ≤ 31 then some (10 * x + y) else none
      | _, _ => none
    else none) = some d
  rw [if_pos hs2, digitVal_digitChar10 hx, digitVal_digitChar10 hy]
  have hd : 10 * (d / 10 % 10) + d % 10 = d := by omega
  show (if 1 ≤ 10 * (d / 10 % 10) + d % 10 ∧ 10 * (d / 10 % 10) + d % 10 ≤ 31
      then some (10 * (d / 10 % 10) + d % 10) else none) = some d
  rw [hd]
  exact if_pos ⟨h1, h2⟩

theorem dayHere_nil (ys ms : List Char) (hys : ys ≠ []) :
    dayHere ys ms [] = none := by
  unfold dayHere
  rw [if_neg]
  intro habs
  obtain ⟨t0, ht0⟩ := List.isPrefixOf_iff_prefix.mp habs
  cases ys with
  | nil => exact hys rfl
  | cons a t => cases ht0

theorem findDay_sound {y m d : Nat} {l : List Char}
    (h : findDay y m l = some d) : dayFollows y m d l := by
  obtain ⟨pre, suf, heq, hdh⟩ := scanTails_sound h
  obtain ⟨h1, h2, s1, s2, t, hs1, hs2, hsuf⟩ := dayHere_sound hdh
  exact ⟨h1, h2, pre, t, s1, s2, hs1, hs2,
    by rw [heq, hsuf, List.append_assoc]⟩

theorem findDay_complete {y m : Nat} {l : List Char}
    (h : findDay y m l = none) : ∀ d, ¬ dayFollows y m d l := by
  intro d hdf
  obtain ⟨h1, h2, pre, post, s1, s2, hs1, hs2, heq⟩ := hdf
  have hsuf := scanTails_complete
    (dayHere_nil (yStr y) (pad2 m) (yStr_ne_nil y)) pre l h
    (yStr y ++ s1 :: (pad2 m ++ s2 :: (pad2 d ++ post)))
    (by rw [heq, List.append_assoc])
  rw [dayHere_complete (yStr y) (pad2 m) s1 s2 d post hs1 hs2 h1 h2] at hsuf
  cases hsuf

theorem buildPhoto_createdAt_folders (o : Option (Option ParsedExif))
    (nid key : String) (s : Nat) (t : Int) (ex : Option PhotoMetadata) :
    (buildPhoto .folders o nid ⟨key, s, t⟩ ex).createdAt =
      (match extractDateFromPath key with
       | some (y, m, d) => Timestamp.ymd y m d
       | none => Timestamp.epoch t) := by
  unfold buildPhoto resolveFields
  dsimp only
  cases hx : extractDateFromPath key with
  | none => rfl
  | some p =>
    obtain ⟨y, m, d⟩ := p
    rfl

theorem buildPhoto_createdAt_dnone (o : Option (Option ParsedExif))
    (nid : String) (obj : S3Object) (ex : Option PhotoMetadata) :
    (buildPhoto .dnone o nid obj ex).createdAt = .epoch obj.lastModified := rfl

/-- Counterexample to C3 as stated: in photos/2023-02-31/x.jpg the year
2023 is found, month 02 immediately follows it and day 31 similarly
follows the month, yet the resolved date is 2023-03-03 — new Date rolls
the out-of-range day into the next month — not 2023-02-31. -/
theorem C3_counterexample :
    extractDateFromPath "photos/2023-02-31/x.jpg" = some (2023, 3, 3) ∧
    (buildPhoto .folders none "u" ⟨"photos/2023-02-31/x.jpg", 7, 99⟩
      none).createdAt = Timestamp.ymd 2023 3 3 ∧
    monthFollows 2023 2 "photos/2023-02-31/x.jpg".data ∧
    dayFollows 2023 2 31 "photos/2023-02-31/x.jpg".data ∧
    Timestamp.ymd 2023 3 3 ≠ Timestamp.ymd 2023 2 31 := by
  refine ⟨by decide, rfl, ?_, ?_, by decide⟩
  · exact ⟨by norm_num, by norm_num, "photos/".data, "-31/x.jpg".data, '-',
      by decide, by decide⟩
  · exact ⟨by norm_num, by norm_num, "photos/".data, "/x.jpg".data, '-', '-',
      by decide, by decide, by decide⟩

/-- Claim C3 (amended): date resolution under the folders mode. The key
photos/2023/05/x.jpg resolves createdAt to 2023-05-01; under the none mode
createdAt equals the supplied lastModified for every key; when no
boundary-delimited year in [1900,2099] occurs in the key, createdAt falls
back to lastModified; and when the year scan finds y, the resolved date is
the calendar normalisation (JavaScript Date semantics: an out-of-range day
rolls into the following month) of (y, m, d), where m is a month
immediately following the year separated by a slash or dash (1 when no
such month occurs) and d is a day similarly following the year-month
prefix (1 when no such day occurs). -/
theorem C3_date_resolution :
    (∀ (o : Option (Option ParsedExif)) (nid : String) (s : Nat) (t : Int)
        (ex : Option PhotoMetadata),
      (buildPhoto .folders o nid ⟨"photos/2023/05/x.jpg", s, t⟩ ex).createdAt =
        Timestamp.ymd 2023 5 1) ∧
    (∀ (key : String) (o : Option (Option ParsedExif)) (nid : String)
        (s : Nat) (t : Int) (ex : Option PhotoMetadata),
      (buildPhoto .dnone o nid ⟨key, s, t⟩ ex).createdAt =
        Timestamp.epoch t) ∧
    (∀ (key : String) (o : Option (Option ParsedExif)) (nid : String)
        (s : Nat) (t : Int) (ex : Option PhotoMetadata),
      (¬ ∃ y, yearOccurs y key.data) →
      (buildPhoto .folders o nid ⟨key, s, t⟩ ex).createdAt =
        Timestamp.epoch t) ∧
    (∀ (key : String) (y : Nat), findYear key.data = some y →
      yearOccurs y key.data ∧
      ∃ m d,
        (monthFollows y m key.data ∨
          (m = 1 ∧ ∀ m', ¬ monthFollows y m' key.data)) ∧
        (dayFollows y m d key.data ∨
          (d = 1 ∧ ∀ d', ¬ dayFollows y m d' key.data)) ∧
        ∀ (o : Option (Option ParsedExif)) (nid : String) (s : Nat) (t : Int)
          (ex : Option PhotoMetadata),
          (buildPhoto .folders o nid ⟨key, s, t⟩ ex).createdAt =
            ymdOf (normYmd y m d)) := by
  refine ⟨?_, fun key o nid s t ex => rfl, ?_, ?_⟩
  · intro o nid s t ex
    rw [buildPhoto_createdAt_folders]
    rw [show extractDateFromPath "photos/2023/05/x.jpg" = some (2023, 5, 1)
      from by decide]
  · intro key o nid s t ex hno
    have hfy : findYear key.data = none := by
      cases hfy' : findYear key.data with
      | none => rfl
      | some y => exact absurd ⟨y, findYear_sound hfy'⟩ hno
    rw [buildPhoto_createdAt_folders]
    unfold extractDateFromPath
    simp only [hfy]
  · intro key y hfy
    refine ⟨findYear_sound hfy, (findMonth y key.data).getD 1,
      (findDay y ((findMonth y key.data).getD 1) key.data).getD 1,
      ?_, ?_, ?_⟩
    · cases hm : findMonth y key.data with
      | some m' => exact Or.inl (findMonth_sound hm)
      | none => exact Or.inr ⟨rfl, findMonth_complete hm⟩
    · cases hd : findDay y ((findMonth y key.data).getD 1) key.data with
      | some d' => exact Or.inl (findDay_sound hd)
      | none => exact Or.inr ⟨rfl, findDay_complete hd⟩
    · intro o nid s t ex
      rw [buildPhoto_createdAt_folders]
      unfold extractDateFromPath
      simp only [hfy]
      generalize normYmd y ((findMonth y key.data).getD 1)
        ((findDay y ((findMonth y key.data).getD 1) key.data).getD 1) = p
      obtain ⟨y', m', d'⟩ := p
      rfl

/-- Witness for the amended C3 at concrete keys: the specification example
under both modes, and the full year-found characterisation for
2023/05/x.jpg. -/
theorem C3_witness :
    (buildPhoto .folders none "u" ⟨"photos/2023/05/x.jpg", 3, 7⟩
      none).createdAt = Timestamp.ymd 2023 5 1 ∧
    (buildPhoto .dnone none "u" ⟨"anything.jpg", 3, 7⟩ none).createdAt =
      Timestamp.epoch 7 ∧
    (yearOccurs 2023 "2023/05/x.jpg".data ∧
      ∃ m d,
        (monthFollows 2023 m "2023/05/x.jpg".data ∨
          (m = 1 ∧ ∀ m', ¬ monthFollows 2023 m' "2023/05/x.jpg".data)) ∧
        (dayFollows 2023 m d "2023/05/x.jpg".data ∨
          (d = 1 ∧ ∀ d', ¬ dayFollows 2023 m d' "2023/05/x.jpg".data)) ∧
        ∀ (o : Option (Option ParsedExif)) (nid : String) (s : Nat) (t : Int)
          (ex : Option PhotoMetadata),
          (buildPhoto .folders o nid ⟨"2023/05/x.jpg", s, t⟩ ex).createdAt =
            ymdOf (normYmd 2023 m d)) :=
  ⟨C3_date_resolution.1 none "u" 3 7 none,
   C3_date_resolution.2.1 "anything.jpg" none "u" 3 7 none,
   C3_date_resolution.2.2.2 "2023/05/x.jpg" 2023 (by decide)⟩

end PhotoBrowser
